import Mathlib

/-!
Shallow embedding of the Pintos_VM demand-paging subsystem
(src/pintos/vm/vm.c, src/pintos/vm/anon.c, src/pintos/vm/file.c and the
mmap path of src/pintos/userprog/syscall.c), with proofs and refutations
of the specification claims about it.

Machine integers are modelled as Nat (addresses, 64-bit, with explicit
mod 2^64 where wrap-around matters) and Int (off_t quantities).
-/

namespace PintosVM

/-- Page size in bytes (PGSIZE of threads/vaddr.h). -/
def PGSIZE : Nat := 4096

/-- Modelled from the spec: the top of the user stack. The constant lives
in the platform headers, which are not under src/; this is the standard
Pintos value. -/
def USER_STACK : Nat := 0x47480000

/-- Modelled from the spec: the base of kernel virtual addresses, against
which is_user_vaddr and is_kernel_vaddr compare (threads/vaddr.h, not
under src/); the standard Pintos value. -/
def KERN_BASE : Nat := 0x8004000000

/-- Two to the sixty-fourth: the modulus of pointer arithmetic. -/
def W64 : Nat := 2 ^ 64

/-- pg_round_down of threads/vaddr.h: round an address down to its page
boundary. -/
def pg_round_down (a : Nat) : Nat := a - a % PGSIZE

/-- pg_ofs of threads/vaddr.h: the offset of an address inside its page. -/
def pg_ofs (a : Nat) : Nat := a % PGSIZE

/-- is_user_vaddr of threads/vaddr.h: the address lies below KERN_BASE. -/
def is_user_vaddr (a : Nat) : Bool := a < KERN_BASE

/-- is_kernel_vaddr of threads/vaddr.h: the address is at or above
KERN_BASE. -/
def is_kernel_vaddr (a : Nat) : Bool := decide (KERN_BASE ≤ a)

/-!
The clock scan of vm_get_victim (vm.c:157-188).

A frame as the scan sees it: its identity, its pinned flag and, when a
page is attached, the accessed bit that pml4_is_accessed reads for the
page's VA in its owner's page table. The ring is rotated so that the
clock cursor is at the head; advancing the cursor with wrap-around is
encoded by moving the examined frame to the back of the list.
-/

/-- One frame in the clock ring: id, pinned flag, and the attached page's
accessed bit (none when no page is attached). -/
structure VFrame where
  id : Nat
  pinned : Bool
  page : Option Bool
deriving DecidableEq

/-- Clearing the accessed bit of the attached page
(pml4_set_accessed(pml4, va, false), vm.c:179). -/
def clearA (f : VFrame) : VFrame := { f with page := f.page.map (fun _ => false) }

/-- The effect of one first-pass visit on a frame: an unpinned, attached,
accessed frame has its accessed bit cleared; everything else is left
alone. -/
def stepF (f : VFrame) : VFrame :=
  if f.pinned = false ∧ f.page = some true then clearA f else f

/-- Result of a clock scan: the chosen victim, the ids of the frames whose
accessed bit the scan cleared, and the number of loop iterations used. -/
structure ScanR where
  victim : Option VFrame
  cleared : List Nat
  steps : Nat
deriving DecidableEq

/-- The bounded clock loop of vm_get_victim (vm.c:166-185). Each
iteration examines the head of the ring and advances the cursor (the
head moves to the back); pinned frames and frames without a page are
skipped; an accessed candidate gets its bit cleared and is skipped
(second chance); the first unpinned, attached, unaccessed frame is
returned. The fuel is the remaining iteration budget; the code starts it
at twice the ring length. -/
def scanRot : Nat → List VFrame → ScanR
  | 0, _ => ⟨none, [], 0⟩
  | _ + 1, [] => ⟨none, [], 0⟩
  | fuel + 1, f :: rest =>
    if f.pinned = true ∨ f.page = none then
      let r := scanRot fuel (rest ++ [f])
      ⟨r.victim, r.cleared, r.steps + 1⟩
    else if f.page = some true then
      let r := scanRot fuel (rest ++ [clearA f])
      ⟨r.victim, f.id :: r.cleared, r.steps + 1⟩
    else ⟨some f, [], 1⟩

/-!
The virtual-memory machine: frames, pages, per-thread page tables, the
swap bitmap and disk, and physical memory at sector granularity. Threads
are identified by Nat ids; the running thread (thread_current()) is
passed explicitly as cur.
-/

/-- The target recorded by an uninit page: VM_ANON, or VM_FILE together
with the file_page aux payload (file handle id, offset, read-bytes)
that file_backed_initializer copies (file.c:29-41). -/
inductive UTarget where
  | toAnon : UTarget
  | toFile (fileId : Nat) (ofs readBytes : Int) : UTarget
deriving DecidableEq

/-- The kind-specific state of a page: the union of vm.h's struct page.
An anon page's slot is the swap_index of anon.c (none encodes -1). -/
inductive PKind where
  | uninitp (tgt : UTarget) (initOk : Bool)
  | anonp (slot : Option Nat)
  | filep (fileId : Nat) (ofs readBytes : Int)
deriving DecidableEq

/-- struct page (vm.h:45-65) together with the owner field vm.c stores on
claim; owner is none until the first vm_do_claim_page sets it. -/
structure PageR where
  id : Nat
  va : Nat
  owner : Option Nat
  writable : Bool
  frame : Option Nat
  kind : PKind
deriving DecidableEq

/-- struct frame (vm.h:68-72) plus the pinned flag vm.c uses. -/
structure FrameR where
  id : Nat
  kva : Nat
  page : Option Nat
  pinned : Bool
deriving DecidableEq

/-- The machine state: the global frame table ring, all pages of all
SPTs, the per-thread page tables (resolve: thread, va to kva), the
accessed and dirty bits, the swap bitmap and swap disk, physical memory
at sector granularity (kva, sector index in page), the number of free
physical user pages of palloc, allocation counters, and the clock
cursor. fileData abstracts the external file system read by
file_backed_swap_in. -/
structure VMState where
  frames : List FrameR
  pages : List PageR
  pml4 : Nat → Nat → Option Nat
  accessed : Nat → Nat → Bool
  dirty : Nat → Nat → Bool
  swapBits : List Bool
  disk : Nat → Nat
  mem : Nat → Nat → Nat
  fileData : Nat → Int → Nat → Nat
  freePhys : Nat
  nextKva : Nat
  nextFid : Nat
  hand : Nat

/-- Look up a page record by id (pointers are modelled as ids). -/
def getPage (st : VMState) (pid : Nat) : Option PageR :=
  st.pages.find? (fun p => p.id == pid)

/-- Look up a frame record by id. -/
def getFrame (st : VMState) (fid : Nat) : Option FrameR :=
  st.frames.find? (fun f => f.id == fid)

/-- Mutate the page record with the given id in place. -/
def setPage (st : VMState) (pid : Nat) (g : PageR → PageR) : VMState :=
  { st with pages := st.pages.map (fun p => if p.id == pid then g p else p) }

/-- Mutate the frame record with the given id in place. -/
def setFrame (st : VMState) (fid : Nat) (g : FrameR → FrameR) : VMState :=
  { st with frames := st.frames.map (fun f => if f.id == fid then g f else f) }

/-- pml4_set_page: install va to kva in thread t's page table. -/
def pml4_set (st : VMState) (t va kva : Nat) : VMState :=
  { st with pml4 := fun t2 v2 => if t2 = t ∧ v2 = va then some kva else st.pml4 t2 v2 }

/-- pml4_clear_page: drop the mapping of va in thread t's page table. -/
def pml4_clear_page (st : VMState) (t va : Nat) : VMState :=
  { st with pml4 := fun t2 v2 => if t2 = t ∧ v2 = va then none else st.pml4 t2 v2 }

/-- The MMU resolve of the spec: pml4_get_page. -/
def resolve (st : VMState) (t va : Nat) : Option Nat := st.pml4 t va

/-- bitmap_scan(swap_table, 0, 1, false) of anon.c:94: the index of the
first free slot, or none (BITMAP_ERROR) when every slot is in use. -/
def bitmap_scan : List Bool → Option Nat
  | [] => none
  | b :: rest => if b then (bitmap_scan rest).map (· + 1) else some 0

/-- anon_swap_out (anon.c:89-118) run by thread cur. Allocates the first
free swap slot, writes the frame's eight sectors to it, marks the slot
in use, clears the VA's PTE in the CURRENT thread's pml4 (not the
owner's), and records the slot in swap_index. The page's frame pointer
is left untouched. The code dereferences page->frame->kva, so a missing
page or frame (a null dereference in C) is modelled as failure. -/
def anon_swap_out (cur pid : Nat) (st : VMState) : Bool × VMState :=
  match getPage st pid with
  | none => (false, st)
  | some p =>
    match bitmap_scan st.swapBits with
    | none => (false, st)
    | some slot =>
      match p.frame.bind (getFrame st) with
      | none => (false, st)
      | some fr =>
        let st1 := { st with
          disk := fun s => if slot * 8 ≤ s ∧ s < slot * 8 + 8 then st.mem fr.kva (s - slot * 8) else st.disk s,
          swapBits := st.swapBits.set slot true }
        let st2 := pml4_clear_page st1 cur p.va
        let st3 := setPage st2 pid (fun q => { q with kind := .anonp (some slot) })
        (true, st3)

/-- Possible results of a claim or swap-in: the C bool, plus the panic a
failed kernel assertion produces. -/
inductive CRes where
  | ok | fail | panic
deriving DecidableEq

/-- anon_swap_in (anon.c:61-83). The stored swap_index is a C int that is
-1 when no slot is held; bitmap_test receives it cast to size_t, so -1
becomes 2^64 - 1 and trips the bitmap bounds assertion, modelled as
panic. With a valid in-use slot the eight sectors are read into the
frame, the slot is released and swap_index is reset to -1. -/
def anon_swap_in (pid kva : Nat) (st : VMState) : CRes × VMState :=
  match getPage st pid with
  | none => (.fail, st)
  | some p =>
    let idx : Nat := match p.kind with
      | .anonp (some s) => s
      | _ => W64 - 1
    match st.swapBits.get? idx with
    | none => (.panic, st)
    | some false => (.fail, st)
    | some true =>
      let st1 := { st with
        mem := fun k i => if k = kva ∧ i < 8 then st.disk (idx * 8 + i) else st.mem k i,
        swapBits := st.swapBits.set idx false }
      let st2 := setPage st1 pid (fun q => { q with kind := .anonp none })
      (.ok, st2)

/-- anon_destroy (anon.c:121-124): the body only introduces an unused
local, so the state is returned unchanged — in particular a held swap
slot is NOT released. -/
def anon_destroy (pid : Nat) (st : VMState) : VMState :=
  match getPage st pid with
  | none => st
  | some _ => st

/-- file_backed_swap_in (file.c:44-51): read page_read_bytes from the
file into the frame and zero the remainder; the file system is external
to the machine, so the bytes landing in the frame come from the abstract
fileData map. The code reads through page->frame, so a missing frame is
modelled as failure; otherwise it returns true like the code. -/
def file_backed_swap_in (pid : Nat) (st : VMState) : CRes × VMState :=
  match getPage st pid with
  | none => (.fail, st)
  | some p =>
    match p.kind, p.frame.bind (getFrame st) with
    | .filep fileId ofs _, some fr =>
      (.ok, { st with mem := fun k i => if k = fr.kva then st.fileData fileId ofs i else st.mem k i })
    | _, _ => (.fail, st)

/-- file_backed_swap_out (file.c:54-68): write back through the file when
the current thread's dirty bit for the VA is set (the file itself is
external to the machine) and clear the dirty bit, then detach both
back-pointers and clear the current thread's PTE. A missing frame (a
null dereference in C) is modelled as failure. -/
def file_backed_swap_out (cur pid : Nat) (st : VMState) : Bool × VMState :=
  match getPage st pid with
  | none => (false, st)
  | some p =>
    match p.frame with
    | none => (false, st)
    | some fid =>
      let st1 := if st.dirty cur p.va then
          { st with dirty := fun t v => if t = cur ∧ v = p.va then false else st.dirty t v }
        else st
      let st2 := setFrame st1 fid (fun fr => { fr with page := none })
      let st3 := setPage st2 pid (fun q => { q with frame := none })
      let st4 := pml4_clear_page st3 cur p.va
      (true, st4)

/-- Modelled from the spec: uninit_initialize of vm/uninit.c, which is
not under src/. Per spec section 4.4 the operations pointer is
overwritten to the target kind's ops and the kind state is set up —
anon_initializer (anon.c:43-58) sets swap_index to -1 (none) and
file_backed_initializer (file.c:29-41) copies file, offset and
read-bytes from the aux payload — and then the initializer closure runs;
its success is the stored initOk flag. The morph happens even when the
closure then fails. -/
def uninit_swap_in (pid : Nat) (st : VMState) : CRes × VMState :=
  match getPage st pid with
  | none => (.fail, st)
  | some p =>
    match p.kind with
    | .uninitp tgt initOk =>
      let newKind := match tgt with
        | .toAnon => PKind.anonp none
        | .toFile fileId ofs rb => PKind.filep fileId ofs rb
      let st1 := setPage st pid (fun q => { q with kind := newKind })
      (if initOk then .ok else .fail, st1)
    | _ => (.fail, st)

/-- The swap_in virtual dispatch of vm.h:85: choose the page's
operations by its kind. -/
def swap_in_dispatch (cur pid kva : Nat) (st : VMState) : CRes × VMState :=
  match getPage st pid with
  | none => (.fail, st)
  | some p =>
    match p.kind with
    | .uninitp _ _ => uninit_swap_in pid st
    | .anonp _ => anon_swap_in pid kva st
    | .filep _ _ _ => file_backed_swap_in pid st

/-- The swap_out virtual dispatch of vm.h:86. An uninit page has no
usable swap_out (an uninit page is never a resident victim); that case
is modelled as failure. cur is unused by the anon path only through the
thread_current() calls already folded into anon_swap_out. -/
def swap_out_dispatch (cur pid : Nat) (st : VMState) : Bool × VMState :=
  match getPage st pid with
  | none => (false, st)
  | some p =>
    match p.kind with
    | .uninitp _ _ => (false, st)
    | .anonp _ => anon_swap_out cur pid st
    | .filep _ _ _ => file_backed_swap_out cur pid st

/-- Rotate a list so that position n becomes the head (the clock cursor
encoding used by scanRot). -/
def rotateHand (l : List FrameR) (n : Nat) : List FrameR := l.drop n ++ l.take n

/-- The clock-scan view of a frame (vm.c:173-178): its pinned flag and,
when a page is attached, the accessed bit read through the page's
recorded owner (or the current thread when owner is unset). -/
def toVF (st : VMState) (cur : Nat) (fr : FrameR) : VFrame :=
  { id := fr.id, pinned := fr.pinned,
    page := fr.page.bind (fun pid => (getPage st pid).map (fun p => st.accessed (p.owner.getD cur) p.va)) }

/-- vm_get_victim (vm.c:157-188): run the bounded clock scan over the
ring starting at the saved cursor; write the accessed bits the scan
cleared back through pml4_set_accessed, and advance the cursor past the
frames the scan examined. Returns the victim's frame id. -/
def vm_get_victim (cur : Nat) (st : VMState) : Option Nat × VMState :=
  if st.frames.isEmpty then (none, st)
  else
    let n := st.frames.length
    let h := st.hand % n
    let ring := (rotateHand st.frames h).map (toVF st cur)
    let r := scanRot (2 * n) ring
    let st1 := r.cleared.foldl (fun acc fid =>
      match (getFrame st fid).bind (fun fr => fr.page.bind (getPage st)) with
      | some p => { acc with accessed := fun t v =>
          if t = p.owner.getD cur ∧ v = p.va then false else acc.accessed t v }
      | none => acc) st
    let st2 := { st1 with hand := (h + r.steps) % n }
    (r.victim.map (fun f => f.id), st2)

/-- vm_evict_frame (vm.c:192-201): pick a victim, swap out its page when
one is attached (a swap-out failure fails the eviction), and leave the
frame in the ring for reuse. -/
def vm_evict_frame (cur : Nat) (st : VMState) : Option Nat × VMState :=
  match vm_get_victim cur st with
  | (none, st1) => (none, st1)
  | (some fid, st1) =>
    match getFrame st1 fid with
    | none => (none, st1)
    | some fr =>
      match fr.page with
      | none => (some fid, st1)
      | some pid =>
        match swap_out_dispatch cur pid st1 with
        | (false, st2) => (none, st2)
        | (true, st2) => (some fid, st2)

/-- vm_get_frame (vm.c:211-250). freePhys counts the free physical user
pages of palloc; a fresh page is zero-filled (PAL_ZERO) at a fresh
kernel address and pushed onto the frame table. When palloc fails the
frame struct is freed again and eviction recycles a victim. In both
branches the returned frame ends with page = NULL and pinned = false
(vm.c:242-243). -/
def vm_get_frame (cur : Nat) (st : VMState) : Option Nat × VMState :=
  if st.freePhys > 0 then
    let kva := st.nextKva
    let fid := st.nextFid
    let fr : FrameR := { id := fid, kva := kva, page := none, pinned := false }
    (some fid, { st with
      frames := st.frames ++ [fr],
      mem := fun k i => if k = kva then 0 else st.mem k i,
      freePhys := st.freePhys - 1,
      nextKva := kva + PGSIZE,
      nextFid := fid + 1 })
  else
    match vm_evict_frame cur st with
    | (none, st1) => (none, st1)
    | (some fid, st1) => (some fid, setFrame st1 fid (fun fr => { fr with page := none, pinned := false }))

/-- vm_do_claim_page (vm.c:356-384) run by thread cur, with a pteOk
oracle standing for the success of pml4_set_page (which fails when
page-table pages cannot be allocated). After obtaining a frame the code
links frame->page and page->frame, records the owner, pins the frame,
installs the PTE and runs the page's swap_in, unpinning afterwards. The
failure paths return false WITHOUT calling free_frame: the frame stays
in the frame table with the page attached, and on PTE failure it even
stays pinned. -/
def vm_do_claim_page (cur pid : Nat) (pteOk : Bool) (st : VMState) : CRes × VMState :=
  match vm_get_frame cur st with
  | (none, st1) => (.fail, st1)
  | (some fid, st1) =>
    match getFrame st1 fid, getPage st1 pid with
    | some fr, some p =>
      let st2 := setFrame st1 fid (fun f2 => { f2 with page := some pid, pinned := true })
      let st3 := setPage st2 pid (fun q => { q with frame := some fid, owner := some cur })
      if pteOk = false then (.fail, st3)
      else
        let st4 := pml4_set st3 cur p.va fr.kva
        match swap_in_dispatch cur pid fr.kva st4 with
        | (.panic, st5) => (.panic, st5)
        | (r, st5) => (r, setFrame st5 fid (fun f2 => { f2 with pinned := false }))
    | _, _ => (.fail, st1)

/-!
The fault handler and stack growth (vm.c:252-320, 487-498). The SPT is
abstracted to the list of registered pages; claiming a found page is
abstracted to the claimed outcome, since claim C3 is about the
stack-growth decision.
-/

/-- is_valid_stack_access (vm.c:487-498). addr and rsp are uintptr_t
values below 2^64; rsp - 32 is computed in 64-bit unsigned arithmetic
and wraps when rsp < 32. -/
def is_valid_stack_access (addr rsp : Nat) : Bool :=
  if USER_STACK ≤ addr then false
  else if addr < (rsp + (W64 - 32)) % W64 then false
  else if 2 ^ 20 < USER_STACK - addr then false
  else true

/-- A registered page as the fault-handler model sees it: its VA, its
writable flag, whether it was registered as VM_ANON, and whether
vm_claim_page has been run on it. -/
structure SPage2 where
  va : Nat
  writable : Bool
  isAnon : Bool
  claimed : Bool
deriving DecidableEq

/-- The outcome of vm_try_handle_fault: rejected, claimed an existing
page, or grew the stack at the given page address. -/
inductive FOut where
  | reject
  | claimedp (va : Nat)
  | grew (va : Nat)
deriving DecidableEq

/-- vm_stack_growth (vm.c:253-268): round the address down; do nothing
when the SPT already holds that page; otherwise register a writable
VM_ANON page there and claim it. Both failures PANIC in the code;
registration cannot collide on this path and the claim is recorded as
performed. -/
def vm_stack_growth (spt : List SPage2) (addr : Nat) : List SPage2 :=
  let pa := pg_round_down addr
  if spt.any (fun p => p.va == pa) then spt
  else spt ++ [{ va := pa, writable := true, isAnon := true, claimed := true }]

/-- vm_try_handle_fault (vm.c:291-320): reject protection faults
(not_present = false), page-align the address, reject kernel addresses,
claim a page found in the SPT, otherwise grow the stack when
is_valid_stack_access accepts the RAW faulting address against the saved
f->rsp, else reject. The user and write flags are unused by the code. -/
def vm_try_handle_fault (spt : List SPage2) (addr rsp : Nat)
    (user write notPresent : Bool) : FOut × List SPage2 :=
  if notPresent = false then (.reject, spt)
  else
    let pa := pg_round_down addr
    if is_user_vaddr pa = false then (.reject, spt)
    else if spt.any (fun p => p.va == pa) then (.claimedp pa, spt)
    else if is_valid_stack_access addr rsp then (.grew pa, vm_stack_growth spt addr)
    else (.reject, spt)

/-!
The mmap path (file.c:135-238) with an explicit heap: pointers are ids
handed out by a counter, live tracks the currently allocated ones, and
freeing a pointer that is not live records the undefined behaviour in
the doubleFree flag.
-/

/-- A file handle as do_mmap consumes it: an identity and the
file_length result. -/
structure FileH where
  id : Nat
  len : Int
deriving DecidableEq

/-- One SPT entry registered by do_mmap: a lazy VM_FILE page carrying
its page struct pointer, its aux payload pointer, and the file_page
loader fields (file.c:204-210). -/
structure MEntry where
  va : Nat
  writable : Bool
  pagePtr : Nat
  auxPtr : Nat
  fileId : Nat
  ofs : Int
  readBytes : Int
  zeroBytes : Int
deriving DecidableEq

/-- A struct mmap_region (file.c:183-189). -/
structure MRegion where
  startAddr : Nat
  pageCount : Nat
  fileId : Nat
  ptr : Nat
deriving DecidableEq

/-- The state the mmap path works on: the current thread's SPT, its
region list, and the heap bookkeeping. -/
structure MState where
  spt : List MEntry
  regions : List MRegion
  live : List Nat
  nextPtr : Nat
  doubleFree : Bool
deriving DecidableEq

/-- malloc: hand out a fresh pointer and mark it live. -/
def mallocPtr (st : MState) : Nat × MState :=
  (st.nextPtr, { st with live := st.live ++ [st.nextPtr], nextPtr := st.nextPtr + 1 })

/-- free: release a live pointer; freeing anything else is undefined
behaviour in C, recorded here in the doubleFree flag. -/
def hfree (ptr : Nat) (st : MState) : MState :=
  if ptr ∈ st.live then { st with live := st.live.erase ptr }
  else { st with doubleFree := true }

/-- One step of the rollback loop of do_mmap (file.c:226-234): find the
page at addr + j*PGSIZE; when present, spt_remove_page (vm.c:151-154)
deletes it from the SPT and vm_dealloc_page destroys it and frees the
page struct (the uninit destroy of vm/uninit.c is not under src/ and per
spec sections 4.4 and 4.9 releases nothing; the aux payload is released
by the caller); then the code frees page->uninit.aux, reading through
the already freed page, and finally frees the page struct a second
time. -/
def mmapRollbackStep (addr j : Nat) (st : MState) : MState :=
  let pa := addr + j * PGSIZE
  match st.spt.find? (fun e => e.va == pa) with
  | none => st
  | some e =>
    let st1 := { st with spt := st.spt.filter (fun e2 => e2.va != pa) }
    let st2 := hfree e.pagePtr st1
    let st3 := hfree e.auxPtr st2
    hfree e.pagePtr st3

/-- The full rollback of do_mmap (file.c:225-237): sweep every page slot
of the attempted range, then unlink and free the region record. -/
def mmapRollback (addr pageCount regionPtr : Nat) (st : MState) : MState :=
  let st1 := (List.range pageCount).foldl (fun acc j => mmapRollbackStep addr j acc) st
  hfree regionPtr { st1 with regions := st1.regions.filter (fun r => r.ptr != regionPtr) }

/-- The registration loop of do_mmap (file.c:195-221). mallocOk is the
success oracle of the malloc calls, indexed in call order; each
iteration consumes index mIdx for the aux payload and mIdx + 1 for the
page struct inside vm_alloc_page_with_initializer (vm.c:64-103), which
fails on a VA collision or on page-struct allocation failure. The off_t
bookkeeping (current_offset, remaining, file_remaining) follows the code
verbatim, including the unclamped read_bytes = file_remaining when the
file remainder is negative. Returns whether the loop completed. -/
def mmapLoop (addr : Nat) (writable : Bool) (fileId : Nat) (mallocOk : Nat → Bool) :
    Nat → Nat → Nat → Int → Int → Int → MState → Bool × MState
  | 0, _, _, _, _, _, st => (true, st)
  | n + 1, i, mIdx, curOfs, remaining, fileRem, st =>
    let pa := addr + i * PGSIZE
    let rb0 : Int := if remaining > (PGSIZE : Int) then (PGSIZE : Int) else remaining
    let rb : Int := if rb0 > fileRem then fileRem else rb0
    let zb : Int := (PGSIZE : Int) - rb
    if mallocOk mIdx = false then (false, st)
    else
      let auxPair := mallocPtr st
      let st1 := auxPair.2
      if st1.spt.any (fun e => e.va == pa) then (false, hfree auxPair.1 st1)
      else if mallocOk (mIdx + 1) = false then (false, hfree auxPair.1 st1)
      else
        let pagePair := mallocPtr st1
        let st2 := pagePair.2
        let e : MEntry := { va := pa, writable := writable, pagePtr := pagePair.1,
                            auxPtr := auxPair.1, fileId := fileId, ofs := curOfs,
                            readBytes := rb, zeroBytes := zb }
        let st3 := { st2 with spt := st2.spt ++ [e] }
        mmapLoop addr writable fileId mallocOk n (i + 1) (mIdx + 2) (curOfs + rb)
          (remaining - rb) (fileRem - rb) st3

/-- do_mmap (file.c:135-238). The argument checks are in source order;
note that offset is checked for page alignment but never compared with
the file length. mallocOk index 0 is the region record; the loop then
uses 1 + 2i and 2 + 2i for page i. Addresses are 64-bit; off_t values
are modelled as Int (callers stay inside the int32 range). -/
def do_mmap (addr : Nat) (length : Int) (writable : Bool) (file : Option FileH)
    (offset : Int) (mallocOk : Nat → Bool) (st : MState) : Option Nat × MState :=
  match file with
  | none => (none, st)
  | some f =>
    if length ≤ 0 then (none, st)
    else if pg_ofs addr ≠ 0 then (none, st)
    else if f.len = 0 then (none, st)
    else if is_kernel_vaddr addr then (none, st)
    else
      let endAddr := (addr + length.toNat) % W64
      if is_kernel_vaddr endAddr then (none, st)
      else if endAddr < addr then (none, st)
      else if offset % (PGSIZE : Int) ≠ 0 then (none, st)
      else if pg_ofs addr ≠ 0 then (none, st)
      else if is_user_vaddr ((addr + (length.toNat - 1)) % W64) = false then (none, st)
      else
        let pageCount := ((length + (PGSIZE : Int) - 1) / (PGSIZE : Int)).toNat
        if (List.range pageCount).any (fun i => st.spt.any (fun e => e.va == addr + i * PGSIZE)) then
          (none, st)
        else if mallocOk 0 = false then (none, st)
        else
          let regionPair := mallocPtr st
          let st1 := regionPair.2
          let st2 := { st1 with regions := st1.regions ++
            [{ startAddr := addr, pageCount := pageCount, fileId := f.id, ptr := regionPair.1 }] }
          match mmapLoop addr writable f.id mallocOk pageCount 0 1 offset length (f.len - offset) st2 with
          | (true, st3) => (some addr, st3)
          | (false, st3) => (none, mmapRollback addr pageCount regionPair.1 st3)

/-!
supplemental_page_table_copy (vm.c:392-442). The environment oracles,
indexed by the source-entry position, abstract malloc, file_reopen, the
page-struct allocation inside vm_alloc_page_with_initializer, and the
frame machinery behind vm_claim_page. The code ignores the results of
vm_alloc_page_with_initializer and vm_claim_page; only a file_reopen
failure returns false, and the resident path dereferences the null
result of spt_find_page, or the page's null frame, when allocation or
claim failed.
-/

/-- The kind of a source SPT entry as the copy distinguishes them:
an uninit page with target VM_ANON carrying a file_loader aux whose file
field may be null, an uninit page with target VM_FILE, a resident anon
page, or a resident file page. -/
inductive SKind where
  | uninitAnon (auxFile : Option Nat)
  | uninitFile
  | residentAnon
  | residentFile
deriving DecidableEq

/-- A page of the source SPT. -/
structure SrcPage where
  va : Nat
  writable : Bool
  kind : SKind
deriving DecidableEq

/-- A page registered in the child SPT: vmType records the enum vm_type
argument passed to vm_alloc_page_with_initializer (1 = VM_ANON) and
claimed whether vm_claim_page attached a frame. -/
structure DstPage where
  va : Nat
  writable : Bool
  vmType : Nat
  claimed : Bool
deriving DecidableEq

/-- Failure events observed during the copy. -/
inductive CEvent where
  | mallocFail | reopenFail | allocFail | claimFail
deriving DecidableEq

/-- The copy's outcome: the C bool, or a crash on a null dereference. -/
inductive CopyRes where
  | ret (b : Bool)
  | crash
deriving DecidableEq

/-- The oracles abstracting the copy's environment, indexed by source
position. -/
structure CEnv where
  mallocOk : Nat → Bool
  reopenOk : Nat → Bool
  allocOk : Nat → Bool
  claimOk : Nat → Bool

/-- The iteration of supplemental_page_table_copy (vm.c:397-439) over
the source entries. VM_FILE pages and uninit pages with target VM_FILE
are skipped. On the uninit (anon) path: the loader malloc result is not
checked (memcpy into null: crash); a failed file_reopen frees the loader
and returns false; the results of vm_alloc_page_with_initializer and
vm_claim_page are discarded and iteration continues. On the resident
(anon) path the results are also discarded, and the child page is then
dereferenced: a missing page or a missing frame crashes. -/
def spt_copy_loop (env : CEnv) : List SrcPage → Nat → List DstPage → List CEvent →
    CopyRes × List DstPage × List CEvent
  | [], _, dst, ev => (.ret true, dst, ev)
  | s :: rest, i, dst, ev =>
    match s.kind with
    | .residentFile => spt_copy_loop env rest (i + 1) dst ev
    | .uninitFile => spt_copy_loop env rest (i + 1) dst ev
    | .uninitAnon auxFile =>
      if env.mallocOk i = false then (.crash, dst, .mallocFail :: ev)
      else if auxFile.isSome ∧ env.reopenOk i = false then (.ret false, dst, .reopenFail :: ev)
      else
        let aOk := env.allocOk i && !(dst.any (fun d => d.va == s.va))
        let dst1 := if aOk then dst ++ [{ va := s.va, writable := s.writable, vmType := 1, claimed := false }] else dst
        let cOk := dst1.any (fun d => d.va == s.va) && env.claimOk i
        let dst2 := if cOk then dst1.map (fun d => if d.va == s.va then { d with claimed := true } else d) else dst1
        let ev1 := if aOk then ev else .allocFail :: ev
        let ev2 := if cOk then ev1 else .claimFail :: ev1
        spt_copy_loop env rest (i + 1) dst2 ev2
    | .residentAnon =>
      let aOk := env.allocOk i && !(dst.any (fun d => d.va == s.va))
      let dst1 := if aOk then dst ++ [{ va := s.va, writable := s.writable, vmType := 1, claimed := false }] else dst
      let cOk := dst1.any (fun d => d.va == s.va) && env.claimOk i
      let dst2 := if cOk then dst1.map (fun d => if d.va == s.va then { d with claimed := true } else d) else dst1
      let ev1 := if aOk then ev else .allocFail :: ev
      let ev2 := if cOk then ev1 else .claimFail :: ev1
      match dst2.find? (fun d => d.va == s.va) with
      | none => (.crash, dst2, ev2)
      | some d =>
        if d.claimed then spt_copy_loop env rest (i + 1) dst2 ev2
        else (.crash, dst2, ev2)

/-- supplemental_page_table_copy (vm.c:392-442): run the loop from an
empty child SPT. -/
def supplemental_page_table_copy (env : CEnv) (src : List SrcPage) :
    CopyRes × List DstPage × List CEvent :=
  spt_copy_loop env src 0 [] []

/-!
Concrete states used by the counterexamples and witnesses.
-/

/-- A resident anon page owned by thread 1, attached to frame 7. -/
def pageC1 : PageR :=
  { id := 1, va := 0x1000, owner := some 1, writable := true, frame := some 7, kind := .anonp none }

/-- The frame holding pageC1. -/
def frameC1 : FrameR := { id := 7, kva := 0x9000, page := some 1, pinned := false }

/-- A machine state in which thread 1 owns resident anon page 1 on frame
7 and the single swap slot is free. -/
def stC1 : VMState :=
  { frames := [frameC1], pages := [pageC1],
    pml4 := fun t v => if t = 1 ∧ v = 0x1000 then some 0x9000 else none,
    accessed := fun _ _ => false, dirty := fun _ _ => false,
    swapBits := [false], disk := fun _ => 0, mem := fun _ _ => 7,
    fileData := fun _ _ _ => 0,
    freePhys := 0, nextKva := 0x20000, nextFid := 8, hand := 0 }

/-- An anon page whose recorded slot 0 is NOT marked in use, so its
swap_in fails cleanly. -/
def pageC2 : PageR :=
  { id := 5, va := 0x5000, owner := none, writable := true, frame := none, kind := .anonp (some 0) }

/-- A machine state with one free physical page and pageC2 registered. -/
def stC2 : VMState :=
  { frames := [], pages := [pageC2],
    pml4 := fun _ _ => none,
    accessed := fun _ _ => false, dirty := fun _ _ => false,
    swapBits := [false], disk := fun _ => 0, mem := fun _ _ => 0,
    fileData := fun _ _ _ => 0,
    freePhys := 1, nextKva := 0x20000, nextFid := 0, hand := 0 }

/-- An anon page holding no swap slot (swap_index = -1). -/
def pageC4 : PageR :=
  { id := 2, va := 0x2000, owner := some 1, writable := true, frame := none, kind := .anonp none }

/-- A machine state containing pageC4 and a one-slot swap bitmap. -/
def stC4 : VMState :=
  { frames := [], pages := [pageC4],
    pml4 := fun _ _ => none,
    accessed := fun _ _ => false, dirty := fun _ _ => false,
    swapBits := [true], disk := fun _ => 0, mem := fun _ _ => 0,
    fileData := fun _ _ _ => 0,
    freePhys := 0, nextKva := 0x20000, nextFid := 0, hand := 0 }

/-- A swapped-out anon page holding slot 0. -/
def pageC6 : PageR :=
  { id := 3, va := 0x3000, owner := some 1, writable := true, frame := none, kind := .anonp (some 0) }

/-- A machine state in which slot 0 is in use, held by pageC6, which is
about to be destroyed. -/
def stC6 : VMState :=
  { frames := [], pages := [pageC6],
    pml4 := fun _ _ => none,
    accessed := fun _ _ => false, dirty := fun _ _ => false,
    swapBits := [true], disk := fun _ => 0, mem := fun _ _ => 0,
    fileData := fun _ _ _ => 0,
    freePhys := 0, nextKva := 0x20000, nextFid := 0, hand := 0 }

/-- A resident anon page owned by thread 1, attached to frame 7,
unaccessed, about to be evicted. -/
def pageC7a : PageR :=
  { id := 1, va := 0x1000, owner := some 1, writable := true, frame := some 7, kind := .anonp none }

/-- A lazy anon page about to be claimed by thread 1. -/
def pageC7b : PageR :=
  { id := 2, va := 0x2000, owner := none, writable := true, frame := none,
    kind := .uninitp .toAnon true }

/-- The only frame of the ring, holding pageC7a. -/
def frameC7 : FrameR := { id := 7, kva := 0x9000, page := some 1, pinned := false }

/-- A machine state with no free physical page, so that claiming pageC7b
evicts frameC7 away from pageC7a. -/
def stC7 : VMState :=
  { frames := [frameC7], pages := [pageC7a, pageC7b],
    pml4 := fun t v => if t = 1 ∧ v = 0x1000 then some 0x9000 else none,
    accessed := fun _ _ => false, dirty := fun _ _ => false,
    swapBits := [false], disk := fun _ => 0, mem := fun _ _ => 0,
    fileData := fun _ _ _ => 0,
    freePhys := 0, nextKva := 0x20000, nextFid := 8, hand := 0 }

/-- The empty mmap-path state. -/
def mst0 : MState := { spt := [], regions := [], live := [], nextPtr := 0, doubleFree := false }

/-- A copy environment in which every claim fails and everything else
succeeds. -/
def envC9 : CEnv :=
  { mallocOk := fun _ => true, reopenOk := fun _ => true,
    allocOk := fun _ => true, claimOk := fun _ => false }

/-- A source SPT holding one uninit anon page with a null loader file. -/
def srcC9 : List SrcPage := [{ va := 0x5000, writable := true, kind := .uninitAnon none }]

/-!
Counterexamples and failing-input evaluations.
-/

/-- C1 counterexample: thread 2 evicts the anon page owned by thread 1.
anon_swap_out succeeds and a free slot was available, yet afterwards
resolving the OWNER's VA still yields the old kva (the PTE was cleared
in the current thread's page table instead) and the page's frame pointer
is still attached — refuting both the owner-PTE-clearing and the
frame-detaching parts of the claim, and its postcondition that
resolve(owner, page.va) returns none. -/
theorem anon_swap_out_cex :
    pageC1.owner = some 1
    ∧ pageC1.frame = some 7
    ∧ bitmap_scan stC1.swapBits = some 0
    ∧ (anon_swap_out 2 1 stC1).1 = true
    ∧ resolve (anon_swap_out 2 1 stC1).2 1 0x1000 = some 0x9000
    ∧ (getPage (anon_swap_out 2 1 stC1).2 1).map PageR.frame = some (some 7) := by
  decide

/-- C2 counterexample: claiming pageC2 obtains a fresh frame (id 0),
installs the PTE, and then swap_in fails because the recorded slot is
not in use. The claim says the failure unwinds by releasing the obtained
frame; instead the frame is still in the frame table, still holds the
page, the page still points at it, and the physical page was not given
back to palloc. -/
theorem vm_do_claim_page_cex :
    (vm_do_claim_page 1 5 true stC2).1 = .fail
    ∧ ((vm_do_claim_page 1 5 true stC2).2.frames.map FrameR.id) = [0]
    ∧ (getFrame (vm_do_claim_page 1 5 true stC2).2 0).map FrameR.page = some (some 5)
    ∧ (getPage (vm_do_claim_page 1 5 true stC2).2 5).map PageR.frame = some (some 0)
    ∧ (vm_do_claim_page 1 5 true stC2).2.freePhys = 0 := by
  decide

/-- C3 counterexample: with saved rsp = 0 and a fault at USER_STACK - 8
on an empty SPT, the claim's three conditions hold with the subtraction
rsp - 32 read over the integers (the address is below USER_STACK, at
least rsp - 32 = -32, and within 1 MiB of USER_STACK), yet the handler
rejects: the code computes rsp - 32 in 64-bit unsigned arithmetic, which
wraps to 2^64 - 32. -/
theorem stack_growth_cex :
    ((USER_STACK - 8 : Nat) < USER_STACK
      ∧ ((USER_STACK - 8 : Nat) : Int) ≥ (0 : Int) - 32
      ∧ USER_STACK - (USER_STACK - 8) ≤ 2 ^ 20)
    ∧ (vm_try_handle_fault [] (USER_STACK - 8) 0 true true true).1 = .reject := by
  decide

/-- C4 counterexample: anon_swap_in on a page holding no swap slot
(swap_index = -1) does not perform a successful no-op: the -1 index cast
to size_t trips the bitmap bounds assertion, refuting the claim that
swap-in returns success in this case. -/
theorem anon_swap_in_cex :
    pageC4.kind = .anonp none
    ∧ (anon_swap_in 2 0x9000 stC4).1 = .panic
    ∧ (anon_swap_in 2 0x9000 stC4).1 ≠ .ok := by
  decide

/-- C6 failing-input evaluation: destroying the anon page that holds
swap slot 0 leaves the swap bitmap untouched (the state is returned
unchanged), so the slot stays marked in use although after destroy no
non-resident anon page holds it — the counting invariant is broken and
the slot is leaked. -/
theorem anon_destroy_slot_leak :
    pageC6.kind = .anonp (some 0)
    ∧ stC6.swapBits = [true]
    ∧ (anon_destroy 3 stC6).swapBits = [true]
    ∧ anon_destroy 3 stC6 = stC6 := by
  exact ⟨rfl, rfl, rfl, rfl⟩

/-- C7 counterexample: in stC7 the back-pointers are consistent (frame 7
and page 1 point at each other). Claiming page 2 succeeds by evicting
frame 7, but anon swap-out does not detach the victim's frame pointer:
afterwards page 1 still records frame 7 while frame 7 records page 2 —
both back-pointers are set and inconsistent, so the operation did not
preserve the claimed invariant. -/
theorem backpointers_cex :
    (frameC7.page = some 1 ∧ pageC7a.frame = some 7)
    ∧ (vm_do_claim_page 1 2 true stC7).1 = .ok
    ∧ (getPage (vm_do_claim_page 1 2 true stC7).2 1).map PageR.frame = some (some 7)
    ∧ (getFrame (vm_do_claim_page 1 2 true stC7).2 7).map FrameR.page = some (some 2) := by
  decide

/-- C8 failing-input evaluation: a two-page do_mmap of a 100-byte file
whose second aux allocation fails (malloc index 3). The rollback does
restore the SPT to empty and returns null, but it frees the first page
struct twice — spt_remove_page already freed it through vm_dealloc_page
before the loop frees it again (and reads its aux field in between) —
so the failure path corrupts the heap instead of failing cleanly. -/
theorem do_mmap_rollback_double_free :
    (do_mmap 0x10000000 8192 true (some { id := 0, len := 100 }) 0 (fun k => k != 3) mst0).1 = none
    ∧ (do_mmap 0x10000000 8192 true (some { id := 0, len := 100 }) 0 (fun k => k != 3) mst0).2.spt = []
    ∧ (do_mmap 0x10000000 8192 true (some { id := 0, len := 100 }) 0 (fun k => k != 3) mst0).2.regions = []
    ∧ (do_mmap 0x10000000 8192 true (some { id := 0, len := 100 }) 0 (fun k => k != 3) mst0).2.doubleFree = true := by
  decide

/-- C9 counterexample: copying an SPT holding one uninit anon page while
every vm_claim_page fails. A claim performed for the child fails (the
claimFail event is recorded), yet the copy returns true — refuting the
claim that the operation returns false whenever any claim fails. -/
theorem spt_copy_cex :
    (supplemental_page_table_copy envC9 srcC9).1 = .ret true
    ∧ CEvent.claimFail ∈ (supplemental_page_table_copy envC9 srcC9).2.2 := by
  decide

/-- C10 counterexample: a two-page mapping of a 100-byte file at offset
4096 > 100 succeeds, and the first registered page indeed carries the
negative read-bytes 100 - 4096 = -3996, but the SECOND registered page
carries read-bytes 0, not the negative file-length-minus-offset the
claim ascribes to every registered page. -/
theorem do_mmap_offset_cex :
    (do_mmap 0x10000000 8192 true (some { id := 0, len := 100 }) 4096 (fun _ => true) mst0).1 = some 0x10000000
    ∧ ((do_mmap 0x10000000 8192 true (some { id := 0, len := 100 }) 4096 (fun _ => true) mst0).2.spt.find?
        (fun e => e.va == 0x10000000)).map MEntry.readBytes = some (-3996)
    ∧ ((do_mmap 0x10000000 8192 true (some { id := 0, len := 100 }) 4096 (fun _ => true) mst0).2.spt.find?
        (fun e => e.va == 0x10001000)).map MEntry.readBytes = some 0
    ∧ (100 : Int) - 4096 ≠ 0 := by
  decide

/-!
Properties of the clock scan, building up to claim C5.
-/

/-- The scan skips a pinned or unattached head and advances. -/
theorem scanRot_victim_skip (fuel : Nat) (f : VFrame) (rest : List VFrame)
    (h : f.pinned = true ∨ f.page = none) :
    (scanRot (fuel + 1) (f :: rest)).victim = (scanRot fuel (rest ++ [f])).victim := by
  simp only [scanRot]
  rw [if_pos h]

/-- The scan clears the accessed bit of an accessed candidate head and
advances. -/
theorem scanRot_victim_second (fuel : Nat) (f : VFrame) (rest : List VFrame)
    (h1 : ¬(f.pinned = true ∨ f.page = none)) (h2 : f.page = some true) :
    (scanRot (fuel + 1) (f :: rest)).victim = (scanRot fuel (rest ++ [clearA f])).victim := by
  simp only [scanRot]
  rw [if_neg h1, if_pos h2]

/-- The scan returns an unpinned, attached, unaccessed head. -/
theorem scanRot_victim_hit (fuel : Nat) (f : VFrame) (rest : List VFrame)
    (h1 : ¬(f.pinned = true ∨ f.page = none)) (h2 : ¬f.page = some true) :
    (scanRot (fuel + 1) (f :: rest)).victim = some f := by
  simp only [scanRot]
  rw [if_neg h1, if_neg h2]

/-- The iteration count of the scan never exceeds the fuel. -/
theorem scanRot_steps_le : ∀ (fuel : Nat) (ring : List VFrame), (scanRot fuel ring).steps ≤ fuel := by
  intro fuel
  induction fuel with
  | zero => intro ring; simp [scanRot]
  | succ n ih =>
    intro ring
    cases ring with
    | nil => simp [scanRot]
    | cons f rest =>
      simp only [scanRot]
      split
      · exact Nat.succ_le_succ (ih _)
      · split
        · exact Nat.succ_le_succ (ih _)
        · simp

/-- A victim found with some fuel is still found with more fuel. -/
theorem scanRot_victim_mono : ∀ (fuel : Nat) (ring : List VFrame) (k : Nat) (f : VFrame),
    (scanRot fuel ring).victim = some f → (scanRot (fuel + k) ring).victim = some f := by
  intro fuel
  induction fuel with
  | zero => intro ring k f h; simp [scanRot] at h
  | succ n ih =>
    intro ring k f h
    have harith : n + 1 + k = (n + k) + 1 := by omega
    cases ring with
    | nil => simp [scanRot] at h
    | cons g rest =>
      by_cases h1 : g.pinned = true ∨ g.page = none
      · rw [scanRot_victim_skip n g rest h1] at h
        rw [harith, scanRot_victim_skip (n + k) g rest h1]
        exact ih _ k f h
      · by_cases h2 : g.page = some true
        · rw [scanRot_victim_second n g rest h1 h2] at h
          rw [harith, scanRot_victim_second (n + k) g rest h1 h2]
          exact ih _ k f h
        · rw [scanRot_victim_hit n g rest h1 h2] at h
          rw [harith, scanRot_victim_hit (n + k) g rest h1 h2]
          exact h

/-- Over a ring with no unpinned attached frame the scan finds nothing,
with any fuel. -/
theorem scanRot_victim_none : ∀ (fuel : Nat) (ring : List VFrame),
    (∀ f ∈ ring, f.pinned = true ∨ f.page = none) →
    (scanRot fuel ring).victim = none := by
  intro fuel
  induction fuel with
  | zero => intro ring _; simp [scanRot]
  | succ n ih =>
    intro ring h
    cases ring with
    | nil => simp [scanRot]
    | cons f rest =>
      rw [scanRot_victim_skip n f rest (h f (by simp))]
      refine ih _ ?_
      intro g hg
      rcases List.mem_append.mp hg with hg | hg
      · exact h g (List.mem_cons_of_mem _ hg)
      · simp only [List.mem_singleton] at hg
        subst hg
        exact h g (by simp)

/-- A victim is always an unpinned frame with an attached, unaccessed
page (at the moment it is returned): the scan skips pinned and
unattached frames and moves past accessed candidates. -/
theorem scanRot_victim_shape : ∀ (fuel : Nat) (ring : List VFrame) (f : VFrame),
    (scanRot fuel ring).victim = some f → f.pinned = false ∧ f.page = some false := by
  intro fuel
  induction fuel with
  | zero => intro ring f h; simp [scanRot] at h
  | succ n ih =>
    intro ring f h
    cases ring with
    | nil => simp [scanRot] at h
    | cons g rest =>
      by_cases h1 : g.pinned = true ∨ g.page = none
      · rw [scanRot_victim_skip n g rest h1] at h
        exact ih _ f h
      · by_cases h2 : g.page = some true
        · rw [scanRot_victim_second n g rest h1 h2] at h
          exact ih _ f h
        · rw [scanRot_victim_hit n g rest h1 h2] at h
          push_neg at h1
          have hg : g.pinned = false ∧ g.page = some false := by
            refine ⟨by simpa using h1.1, ?_⟩
            rcases hpg : g.page with _ | b
            · exact absurd hpg h1.2
            · cases b with
              | false => rfl
              | true => exact absurd hpg h2
          injection h with h
          rw [← h]
          exact hg

/-- If the scan order begins with frames that are pinned, unattached or
accessed and then reaches an unpinned unaccessed candidate, the scan
returns that candidate, provided the fuel covers the prefix. -/
theorem scanRot_first_hit : ∀ (pre : List VFrame) (c : VFrame) (rest : List VFrame) (fuel : Nat),
    (∀ f ∈ pre, f.pinned = true ∨ f.page = none ∨ f.page = some true) →
    c.pinned = false → c.page = some false →
    pre.length < fuel →
    (scanRot fuel (pre ++ c :: rest)).victim = some c := by
  intro pre
  induction pre with
  | nil =>
    intro c rest fuel _ hcp hcg hlen
    cases fuel with
    | zero => omega
    | succ n =>
      rw [List.nil_append]
      exact scanRot_victim_hit n c rest (by simp [hcp, hcg]) (by simp [hcg])
  | cons f pre ih =>
    intro c rest fuel hpre hcp hcg hlen
    cases fuel with
    | zero => omega
    | succ n =>
      have hshift : (f :: pre) ++ c :: rest = f :: (pre ++ c :: rest) := by simp
      have hassoc : (pre ++ c :: rest) ++ [f] = pre ++ c :: (rest ++ [f]) := by
        simp [List.append_assoc]
      have hlen2 : pre.length < n := by simp at hlen; omega
      by_cases h1 : f.pinned = true ∨ f.page = none
      · rw [hshift, scanRot_victim_skip n f _ h1, hassoc]
        exact ih c (rest ++ [f]) n (fun g hg => hpre g (List.mem_cons_of_mem _ hg)) hcp hcg hlen2
      · have h2 : f.page = some true := by
          rcases hpre f (by simp) with h | h | h
          · exact absurd (Or.inl h) h1
          · exact absurd (Or.inr h) h1
          · exact h
        rw [hshift, scanRot_victim_second n f _ h1 h2]
        have hassoc2 : (pre ++ c :: rest) ++ [clearA f] = pre ++ c :: (rest ++ [clearA f]) := by
          simp [List.append_assoc]
        rw [hassoc2]
        exact ih c (rest ++ [clearA f]) n (fun g hg => hpre g (List.mem_cons_of_mem _ hg)) hcp hcg hlen2

/-- First-pass lemma: scanning a segment in which every candidate is
accessed neither returns nor stops; it only clears those accessed bits
and moves the segment, stepped, to the back of the ring. -/
theorem scanRot_pass : ∀ (ys zs : List VFrame) (m : Nat),
    (∀ f ∈ ys, f.pinned = false → f.page ≠ none → f.page = some true) →
    (scanRot (ys.length + m) (ys ++ zs)).victim = (scanRot m (zs ++ ys.map stepF)).victim := by
  intro ys
  induction ys with
  | nil => intro zs m _; simp
  | cons f ys ih =>
    intro zs m h
    have harith : (f :: ys).length + m = (ys.length + m) + 1 := by simp; omega
    have hys : ∀ g ∈ ys, g.pinned = false → g.page ≠ none → g.page = some true :=
      fun g hg => h g (List.mem_cons_of_mem _ hg)
    rw [harith, List.cons_append]
    by_cases h1 : f.pinned = true ∨ f.page = none
    · have hstep : stepF f = f := by
        unfold stepF
        rcases h1 with h1 | h1 <;> rw [if_neg] <;> simp [h1]
      rw [scanRot_victim_skip _ f _ h1]
      have hassoc : (ys ++ zs) ++ [f] = ys ++ (zs ++ [f]) := by simp [List.append_assoc]
      rw [hassoc, ih (zs ++ [f]) m hys]
      have : (zs ++ [f]) ++ ys.map stepF = zs ++ (f :: ys).map stepF := by
        simp [List.append_assoc, hstep]
      rw [this]
    · push_neg at h1
      have hpin : f.pinned = false := by simpa using h1.1
      have h2 : f.page = some true := h f (by simp) hpin h1.2
      have hstep : stepF f = clearA f := by
        unfold stepF
        rw [if_pos ⟨hpin, h2⟩]
      rw [scanRot_victim_second _ f _ (by simp [hpin, h1.2]) h2]
      have hassoc : (ys ++ zs) ++ [clearA f] = ys ++ (zs ++ [clearA f]) := by
        simp [List.append_assoc]
      rw [hassoc, ih (zs ++ [clearA f]) m hys]
      have : (zs ++ [clearA f]) ++ ys.map stepF = zs ++ (f :: ys).map stepF := by
        simp [List.append_assoc, hstep]
      rw [this]

/-- Splitting a list at the witness of a successful find?. -/
theorem find?_decomp (p : VFrame → Bool) : ∀ (l : List VFrame) (c : VFrame), l.find? p = some c →
    ∃ pre rest, l = pre ++ c :: rest ∧ (∀ f ∈ pre, p f = false) ∧ p c = true := by
  intro l
  induction l with
  | nil => intro c h; simp [List.find?] at h
  | cons x xs ih =>
    intro c h
    by_cases hp : p x = true
    · rw [List.find?_cons_of_pos _ hp] at h
      injection h with h
      subst h
      exact ⟨[], xs, by simp, by simp, hp⟩
    · rw [List.find?_cons_of_neg _ (by simpa using hp)] at h
      obtain ⟨pre, rest, hl, hpre, hc⟩ := ih c h
      refine ⟨x :: pre, rest, by simp [hl], ?_, hc⟩
      intro f hf
      rcases List.mem_cons.mp hf with hf | hf
      · subst hf; simpa using hp
      · exact hpre f hf

/-- Second-pass lemma: when every candidate of the ring is accessed and
the scan order is a non-candidate prefix followed by a candidate c, a
scan with a full extra lap of fuel returns c with its accessed bit
cleared. -/
theorem scanRot_second_lap (ring pre rest : List VFrame) (c : VFrame) (m : Nat)
    (hring : ring = pre ++ c :: rest)
    (hall : ∀ f ∈ ring, f.pinned = false → f.page ≠ none → f.page = some true)
    (hpre : ∀ f ∈ pre, f.pinned = true ∨ f.page = none)
    (hcp : c.pinned = false) (hcg : c.page ≠ none)
    (hm : pre.length < m) :
    (scanRot (ring.length + m) ring).victim = some (clearA c) := by
  have hcacc : c.page = some true := hall c (by rw [hring]; simp) hcp hcg
  have hpass := scanRot_pass ring [] m hall
  rw [List.append_nil, List.nil_append] at hpass
  rw [hpass, hring, List.map_append, List.map_cons]
  have hstepc : stepF c = clearA c := by
    unfold stepF
    rw [if_pos ⟨hcp, hcacc⟩]
  rw [hstepc]
  refine scanRot_first_hit (pre.map stepF) (clearA c) (rest.map stepF) m ?_ ?_ ?_ ?_
  · intro g hg
    obtain ⟨f, hf, hgf⟩ := List.mem_map.mp hg
    have hstepf : stepF f = f := by
      unfold stepF
      rcases hpre f hf with h1 | h1 <;> rw [if_neg] <;> simp [h1]
    rw [← hgf, hstepf]
    rcases hpre f hf with h1 | h1
    · exact Or.inl h1
    · exact Or.inr (Or.inl h1)
  · simpa [clearA] using hcp
  · simp [clearA, hcacc]
  · simpa using hm

/-- The victim is unchanged by any fuel beyond twice the ring length:
the 2N bound of the code loses nothing. -/
theorem scanRot_fuel_stable (ring : List VFrame) (k : Nat) :
    (scanRot (2 * ring.length + k) ring).victim = (scanRot (2 * ring.length) ring).victim := by
  cases hUn : ring.find? (fun f => !f.pinned && (f.page == some false)) with
  | some c =>
    obtain ⟨pre, rest, hl, hpre, hc⟩ := find?_decomp _ ring c hUn
    have hcp : c.pinned = false := by
      rcases Bool.and_eq_true_iff.mp hc with ⟨h1, _⟩
      simpa using h1
    have hcg : c.page = some false := by
      rcases Bool.and_eq_true_iff.mp hc with ⟨_, h2⟩
      exact beq_iff_eq.mp h2
    have hpre2 : ∀ f ∈ pre, f.pinned = true ∨ f.page = none ∨ f.page = some true := by
      intro f hf
      have := hpre f hf
      by_cases hp : f.pinned = true
      · exact Or.inl hp
      · rcases hpg : f.page with _ | b
        · exact Or.inr (Or.inl rfl)
        · cases b with
          | false =>
            rw [Bool.not_eq_true] at hp
            simp [hp, hpg] at this
          | true => exact Or.inr (Or.inr rfl)
    have hlen : pre.length < ring.length := by
      rw [hl]; simp only [List.length_append, List.length_cons]; omega
    have h1 := scanRot_first_hit pre c rest (2 * ring.length + k) hpre2 hcp hcg (by omega)
    have h2 := scanRot_first_hit pre c rest (2 * ring.length) hpre2 hcp hcg (by omega)
    rw [hl] at h1 h2 ⊢
    rw [h1, h2]
  | none =>
    have hNoUn : ∀ f ∈ ring, (!f.pinned && (f.page == some false)) = false := by
      intro f hf
      have := List.find?_eq_none.mp hUn f hf
      simpa using this
    have hall : ∀ f ∈ ring, f.pinned = false → f.page ≠ none → f.page = some true := by
      intro f hf hp hg
      have := hNoUn f hf
      rw [hp] at this
      simp at this
      rcases hpg : f.page with _ | b
      · exact absurd hpg hg
      · cases b
        · rw [hpg] at this; simp at this
        · rfl
    cases hC : ring.find? (fun f => !f.pinned && !(f.page == none)) with
    | some c =>
      obtain ⟨pre, rest, hl, hpre, hc⟩ := find?_decomp _ ring c hC
      have hcp : c.pinned = false := by
        rcases Bool.and_eq_true_iff.mp hc with ⟨h1, _⟩
        simpa using h1
      have hcg : c.page ≠ none := by
        rcases Bool.and_eq_true_iff.mp hc with ⟨_, h2⟩
        simp at h2
        exact h2
      have hpre2 : ∀ f ∈ pre, f.pinned = true ∨ f.page = none := by
        intro f hf
        have := hpre f hf
        by_cases hp : f.pinned = true
        · exact Or.inl hp
        · rcases hpg : f.page with _ | b
          · exact Or.inr rfl
          · rw [Bool.not_eq_true] at hp
            simp [hp, hpg] at this
      have hlen : pre.length < ring.length := by
        rw [hl]; simp only [List.length_append, List.length_cons]; omega
      have e1 : 2 * ring.length + k = ring.length + (ring.length + k) := by omega
      have e2 : 2 * ring.length = ring.length + ring.length := by omega
      rw [e1, e2,
        scanRot_second_lap ring pre rest c (ring.length + k) hl hall hpre2 hcp hcg (by omega),
        scanRot_second_lap ring pre rest c ring.length hl hall hpre2 hcp hcg (by omega)]
    | none =>
      have hNoCand : ∀ f ∈ ring, f.pinned = true ∨ f.page = none := by
        intro f hf
        have := List.find?_eq_none.mp hC f hf
        simp at this
        by_cases hp : f.pinned = true
        · exact Or.inl hp
        · rw [Bool.not_eq_true] at hp
          exact Or.inr (this hp)
      rw [scanRot_victim_none _ ring hNoCand, scanRot_victim_none _ ring hNoCand]

/-- C5: with fuel twice the ring length, the clock scan (the loop of
vm_get_victim, embedded by scanRot) (i) iterates at most 2N times and
extra fuel would never change the victim, so the 2N bound guarantees
termination without losing victims; (ii) any victim is an unpinned frame
with an attached page, unaccessed when returned (pinned and unattached
frames are skipped, accessed candidates are cleared and passed over);
(iii) when every unpinned attached frame is accessed and the scan order
is a run of pinned or unattached frames followed by an unpinned attached
frame c, the scan returns c — the first unpinned attached frame
encountered on the second pass — with its accessed bit cleared; and
(iv) the machine vm_get_victim is this scan over the ring rotated to the
clock cursor. -/
theorem vm_get_victim_clock_spec (ring : List VFrame) :
    ((scanRot (2 * ring.length) ring).steps ≤ 2 * ring.length
      ∧ ∀ k, (scanRot (2 * ring.length + k) ring).victim = (scanRot (2 * ring.length) ring).victim)
    ∧ (∀ f, (scanRot (2 * ring.length) ring).victim = some f →
        f.pinned = false ∧ f.page = some false)
    ∧ (∀ pre c rest, ring = pre ++ c :: rest →
        (∀ f ∈ ring, f.pinned = false → f.page ≠ none → f.page = some true) →
        (∀ f ∈ pre, f.pinned = true ∨ f.page = none) →
        c.pinned = false → c.page ≠ none →
        (scanRot (2 * ring.length) ring).victim = some (clearA c))
    ∧ (∀ (cur : Nat) (st : VMState), st.frames.isEmpty = false →
        (vm_get_victim cur st).1 =
          ((scanRot (2 * st.frames.length)
            ((rotateHand st.frames (st.hand % st.frames.length)).map (toVF st cur))).victim).map
            (fun f => f.id)) := by
  refine ⟨⟨scanRot_steps_le _ _, fun k => scanRot_fuel_stable ring k⟩,
    fun f h => scanRot_victim_shape _ _ f h, ?_, ?_⟩
  · intro pre c rest hl hall hpre hcp hcg
    have hlen : pre.length < ring.length := by rw [hl]; simp only [List.length_append, List.length_cons]; omega
    have e2 : 2 * ring.length = ring.length + ring.length := by omega
    rw [e2]
    exact scanRot_second_lap ring pre rest c ring.length hl hall hpre hcp hcg (by omega)
  · intro cur st h
    unfold vm_get_victim
    rw [if_neg (by simp [h])]

/-!
Bookkeeping lemmas about the machine's keyed lookups and updates.
-/

/-- A successful bitmap_scan points at a free bit of the bitmap. -/
theorem bitmap_scan_spec : ∀ (bits : List Bool) (slot : Nat), bitmap_scan bits = some slot →
    bits.get? slot = some false := by
  intro bits
  induction bits with
  | nil => intro slot h; simp [bitmap_scan] at h
  | cons b rest ih =>
    intro slot h
    cases b with
    | false =>
      simp [bitmap_scan] at h
      subst h
      rfl
    | true =>
      simp only [bitmap_scan, if_pos] at h
      rcases Option.map_eq_some'.mp h with ⟨s, hs, hslot⟩
      subst hslot
      simpa using ih s hs

/-- find? after a keyed in-place update: the element with the updated
key is found transformed, provided the update preserves the key. -/
theorem find?_map_upd {α : Type} (key : α → Nat) (l : List α) (k : Nat) (g : α → α)
    (hid : ∀ a, key (g a) = key a) :
    (l.map (fun a => if key a == k then g a else a)).find? (fun a => key a == k)
      = (l.find? (fun a => key a == k)).map g := by
  induction l with
  | nil => rfl
  | cons x xs ih =>
    simp only [List.map_cons, List.find?_cons]
    by_cases hx : (key x == k) = true
    · rw [if_pos hx]
      simp only [hid, hx, Option.map_some']
    · have hx2 : (key x == k) = false := by simpa using hx
      rw [if_neg hx]
      simp only [hid, hx2, ih]

/-- A keyed in-place update does not change the key sequence. -/
theorem map_key_upd {α : Type} (key : α → Nat) (l : List α) (k : Nat) (g : α → α)
    (hid : ∀ a, key (g a) = key a) :
    (l.map (fun a => if key a == k then g a else a)).map key = l.map key := by
  induction l with
  | nil => rfl
  | cons x xs ih =>
    simp only [List.map_cons, ih]
    by_cases hx : (key x == k) = true
    · rw [if_pos hx, hid]
    · rw [if_neg hx]

/-- getPage after setPage on the same id. -/
theorem getPage_setPage (st : VMState) (pid : Nat) (g : PageR → PageR)
    (hid : ∀ p, (g p).id = p.id) :
    getPage (setPage st pid g) pid = (getPage st pid).map g :=
  find?_map_upd PageR.id st.pages pid g hid

/-- getFrame after setFrame on the same id. -/
theorem getFrame_setFrame (st : VMState) (fid : Nat) (g : FrameR → FrameR)
    (hid : ∀ f, (g f).id = f.id) :
    getFrame (setFrame st fid g) fid = (getFrame st fid).map g :=
  find?_map_upd FrameR.id st.frames fid g hid

/-- setFrame does not change the frame-id sequence of the table. -/
theorem frames_ids_setFrame (st : VMState) (fid : Nat) (g : FrameR → FrameR)
    (hid : ∀ f, (g f).id = f.id) :
    (setFrame st fid g).frames.map FrameR.id = st.frames.map FrameR.id :=
  map_key_upd FrameR.id st.frames fid g hid

/-!
Claim C1: what anon_swap_out actually does.
-/

/-- C1 (amended): for an anonymous page with an attached frame and a
free swap slot available, anon_swap_out succeeds, writes the frame's
eight sectors to the first free slot, marks the slot in use, records the
slot on the page, and clears the VA's PTE in the CURRENT thread's page
table — while leaving the page's frame pointer attached and every other
thread's page table untouched, so resolving the owner's VA yields none
only when the owner is the current thread. -/
theorem anon_swap_out_spec (cur pid : Nat) (st : VMState) (p : PageR) (fid slot : Nat) (fr : FrameR)
    (hp : getPage st pid = some p)
    (hpf : p.frame = some fid)
    (hf : getFrame st fid = some fr)
    (hs : bitmap_scan st.swapBits = some slot) :
    (anon_swap_out cur pid st).1 = true
    ∧ (∀ i, i < 8 → (anon_swap_out cur pid st).2.disk (slot * 8 + i) = st.mem fr.kva i)
    ∧ (anon_swap_out cur pid st).2.swapBits.get? slot = some true
    ∧ resolve (anon_swap_out cur pid st).2 cur p.va = none
    ∧ (getPage (anon_swap_out cur pid st).2 pid).map PageR.kind = some (PKind.anonp (some slot))
    ∧ (getPage (anon_swap_out cur pid st).2 pid).map PageR.frame = some p.frame
    ∧ (∀ t va2, t ≠ cur → resolve (anon_swap_out cur pid st).2 t va2 = resolve st t va2) := by
  have hlt : slot < st.swapBits.length :=
    (List.get?_eq_some.mp (bitmap_scan_spec st.swapBits slot hs)).1
  refine ⟨?_, ?_, ?_, ?_, ?_, ?_, ?_⟩
  · simp only [anon_swap_out, hp, hs, hpf, Option.some_bind, hf]
  · intro i hi
    simp only [anon_swap_out, hp, hs, hpf, Option.some_bind, hf, setPage, pml4_clear_page]
    rw [if_pos (by omega)]
    congr 1
    omega
  · simp only [anon_swap_out, hp, hs, hpf, Option.some_bind, hf, setPage, pml4_clear_page]
    exact List.get?_set_eq_of_lt true hlt
  · simp only [anon_swap_out, hp, hs, hpf, Option.some_bind, hf, setPage, pml4_clear_page, resolve]
    simp
  · simp only [anon_swap_out, hp, hs, hpf, Option.some_bind, hf]
    rw [getPage_setPage _ pid (fun q => { q with kind := PKind.anonp (some slot) }) (fun q => rfl)]
    show Option.map PageR.kind ((getPage st pid).map
      (fun q => { q with kind := PKind.anonp (some slot) })) = some (PKind.anonp (some slot))
    rw [hp]
    rfl
  · simp only [anon_swap_out, hp, hs, hpf, Option.some_bind, hf]
    rw [getPage_setPage _ pid (fun q => { q with kind := PKind.anonp (some slot) }) (fun q => rfl)]
    show Option.map PageR.frame ((getPage st pid).map
      (fun q => { q with kind := PKind.anonp (some slot) })) = some (some fid)
    rw [hp, Option.map_some', Option.map_some']
    show some p.frame = some (some fid)
    rw [hpf]
  · intro t va2 ht
    simp only [anon_swap_out, hp, hs, hpf, Option.some_bind, hf, setPage, pml4_clear_page, resolve]
    simp [ht]

/-- C1 witness: in the concrete state stC1, with the owner itself
evicting, anon_swap_out succeeds and the owner's mapping does become
unresolvable (the current thread IS the owner there). -/
theorem anon_swap_out_spec_w :
    (getPage stC1 1 = some pageC1 ∧ bitmap_scan stC1.swapBits = some 0)
    ∧ (anon_swap_out 1 1 stC1).1 = true
    ∧ resolve (anon_swap_out 1 1 stC1).2 1 0x1000 = none := by
  refine ⟨⟨by decide, by decide⟩, ?_, ?_⟩
  · exact (anon_swap_out_spec 1 1 stC1 pageC1 7 0 frameC1 (by decide) (by decide)
      (by decide) (by decide)).1
  · exact (anon_swap_out_spec 1 1 stC1 pageC1 7 0 frameC1 (by decide) (by decide)
      (by decide) (by decide)).2.2.2.1

/-!
Claim C2: vm_do_claim_page does not unwind on failure.
-/

/-- swap_in never touches the frame table. -/
theorem swap_in_dispatch_frames (cur pid kva : Nat) (st : VMState) :
    (swap_in_dispatch cur pid kva st).2.frames = st.frames := by
  unfold swap_in_dispatch uninit_swap_in anon_swap_in file_backed_swap_in
  dsimp only
  repeat' split
  all_goals rfl

/-- swap_in never changes which frame a page points at (the anon and
uninit paths only rewrite the kind state, the file path only memory). -/
theorem swap_in_dispatch_page_frame (cur pid kva : Nat) (st : VMState) :
    (getPage (swap_in_dispatch cur pid kva st).2 pid).map PageR.frame
      = (getPage st pid).map PageR.frame := by
  unfold swap_in_dispatch uninit_swap_in anon_swap_in file_backed_swap_in
  dsimp only
  repeat' split
  all_goals try rfl
  all_goals
    simp only [getPage, setPage]
    rw [find?_map_upd PageR.id st.pages pid]
    · cases st.pages.find? (fun p2 => p2.id == pid) <;> rfl
    · intro a; rfl

/-- C2 (amended): once vm_do_claim_page has obtained a frame, a failure
of the PTE install or of the page's swap_in makes it return a non-ok
result WITHOUT releasing the frame: the frame table keeps exactly the
same frames, the obtained frame still has the page attached, and the
page still points at the frame; moreover on a PTE-install failure it
returns false with the frame left pinned. -/
theorem vm_do_claim_page_no_unwind (cur pid : Nat) (pteOk : Bool) (st st1 : VMState)
    (fid : Nat) (p : PageR) (fr : FrameR)
    (hg : vm_get_frame cur st = (some fid, st1))
    (hf : getFrame st1 fid = some fr)
    (hp : getPage st1 pid = some p) :
    ((vm_do_claim_page cur pid pteOk st).1 ≠ .ok →
      (vm_do_claim_page cur pid pteOk st).2.frames.map FrameR.id = st1.frames.map FrameR.id
      ∧ (getFrame (vm_do_claim_page cur pid pteOk st).2 fid).map FrameR.page = some (some pid)
      ∧ (getPage (vm_do_claim_page cur pid pteOk st).2 pid).map PageR.frame = some (some fid))
    ∧ (pteOk = false →
      (vm_do_claim_page cur pid pteOk st).1 = .fail
      ∧ (getFrame (vm_do_claim_page cur pid pteOk st).2 fid).map FrameR.pinned = some true) := by
  have hga : getFrame (setFrame st1 fid (fun f2 => { f2 with page := some pid, pinned := true })) fid
      = some { fr with page := some pid, pinned := true } := by
    rw [getFrame_setFrame st1 fid (fun f2 => { f2 with page := some pid, pinned := true })
      (fun a => rfl), hf, Option.map_some']
  have hpa : getPage (setPage (setFrame st1 fid (fun f2 => { f2 with page := some pid, pinned := true })) pid
      (fun q => { q with frame := some fid, owner := some cur })) pid
      = some { p with frame := some fid, owner := some cur } := by
    unfold getPage setPage
    rw [show (setFrame st1 fid (fun f2 => { f2 with page := some pid, pinned := true })).pages
      = st1.pages from rfl]
    rw [find?_map_upd PageR.id st1.pages pid
      (fun q => { q with frame := some fid, owner := some cur }) (fun a => rfl)]
    rw [show st1.pages.find? (fun p2 => p2.id == pid) = some p from hp, Option.map_some']
  have hids : (setPage (setFrame st1 fid (fun f2 => { f2 with page := some pid, pinned := true })) pid
      (fun q => { q with frame := some fid, owner := some cur })).frames.map FrameR.id
      = st1.frames.map FrameR.id := frames_ids_setFrame st1 fid _ (fun a => rfl)
  unfold vm_do_claim_page
  rw [hg]
  dsimp only
  rw [hf, hp]
  dsimp only
  cases pteOk with
  | false =>
    rw [if_pos rfl]
    refine ⟨fun _ => ⟨?_, ?_, ?_⟩, fun _ => ⟨rfl, ?_⟩⟩
    · exact hids
    · rw [show getFrame (setPage (setFrame st1 fid (fun f2 => { f2 with page := some pid, pinned := true })) pid
          (fun q => { q with frame := some fid, owner := some cur })) fid
        = some { fr with page := some pid, pinned := true } from hga]
      rfl
    · rw [hpa]
      rfl
    · rw [show getFrame (setPage (setFrame st1 fid (fun f2 => { f2 with page := some pid, pinned := true })) pid
          (fun q => { q with frame := some fid, owner := some cur })) fid
        = some { fr with page := some pid, pinned := true } from hga]
      rfl
  | true =>
    rw [if_neg (by simp)]
    rcases hd : swap_in_dispatch cur pid fr.kva
      (pml4_set (setPage (setFrame st1 fid (fun f2 => { f2 with page := some pid, pinned := true })) pid
        (fun q => { q with frame := some fid, owner := some cur })) cur p.va fr.kva) with ⟨r, st5⟩
    have hfr5 : st5.frames
        = (setPage (setFrame st1 fid (fun f2 => { f2 with page := some pid, pinned := true })) pid
          (fun q => { q with frame := some fid, owner := some cur })).frames := by
      have h2 := swap_in_dispatch_frames cur pid fr.kva
        (pml4_set (setPage (setFrame st1 fid (fun f2 => { f2 with page := some pid, pinned := true })) pid
          (fun q => { q with frame := some fid, owner := some cur })) cur p.va fr.kva)
      rw [hd] at h2
      exact h2
    have hgf5 : getFrame st5 fid = some { fr with page := some pid, pinned := true } := by
      unfold getFrame
      rw [hfr5]
      exact hga
    have hpg5 : (getPage st5 pid).map PageR.frame = some (some fid) := by
      have h2 := swap_in_dispatch_page_frame cur pid fr.kva
        (pml4_set (setPage (setFrame st1 fid (fun f2 => { f2 with page := some pid, pinned := true })) pid
          (fun q => { q with frame := some fid, owner := some cur })) cur p.va fr.kva)
      rw [hd] at h2
      rw [h2, show getPage (pml4_set (setPage (setFrame st1 fid
          (fun f2 => { f2 with page := some pid, pinned := true })) pid
          (fun q => { q with frame := some fid, owner := some cur })) cur p.va fr.kva) pid
        = some { p with frame := some fid, owner := some cur } from hpa]
      rfl
    have hids5 : st5.frames.map FrameR.id = st1.frames.map FrameR.id := by
      rw [hfr5]
      exact hids
    cases r with
    | panic =>
      refine ⟨fun _ => ⟨hids5, ?_, hpg5⟩, fun h => by simp at h⟩
      rw [hgf5]
      rfl
    | ok =>
      refine ⟨fun hne => absurd rfl hne, fun h => by simp at h⟩
    | fail =>
      refine ⟨fun _ => ⟨?_, ?_, ?_⟩, fun h => by simp at h⟩
      · rw [show ((CRes.fail, setFrame st5 fid (fun f2 => { f2 with pinned := false })).2.frames.map FrameR.id)
          = (setFrame st5 fid (fun f2 => { f2 with pinned := false })).frames.map FrameR.id from rfl]
        rw [frames_ids_setFrame st5 fid (fun f2 => { f2 with pinned := false }) (fun a => rfl)]
        exact hids5
      · rw [show getFrame (CRes.fail, setFrame st5 fid (fun f2 => { f2 with pinned := false })).2 fid
          = getFrame (setFrame st5 fid (fun f2 => { f2 with pinned := false })) fid from rfl]
        rw [getFrame_setFrame st5 fid (fun f2 => { f2 with pinned := false }) (fun a => rfl), hgf5]
        rfl
      · rw [show getPage (CRes.fail, setFrame st5 fid (fun f2 => { f2 with pinned := false })).2 pid
          = getPage st5 pid from rfl]
        exact hpg5

/-- C2 witness: in the concrete state stC2 a frame is obtained and the
PTE install is made to fail; the claim returns false with the frame
still pinned, and the frame table still holds the obtained frame with
the page attached. -/
theorem vm_do_claim_page_no_unwind_w :
    (vm_do_claim_page 1 5 false stC2).1 = .fail
    ∧ (getFrame (vm_do_claim_page 1 5 false stC2).2 0).map FrameR.pinned = some true
    ∧ (vm_do_claim_page 1 5 false stC2).2.frames.map FrameR.id
      = (vm_get_frame 1 stC2).2.frames.map FrameR.id
    ∧ (getFrame (vm_do_claim_page 1 5 false stC2).2 0).map FrameR.page = some (some 5) := by
  have h1 : (vm_get_frame 1 stC2).1 = some 0 := by decide
  have hg : vm_get_frame 1 stC2 = (some 0, (vm_get_frame 1 stC2).2) := by
    rw [← h1]
  have h := vm_do_claim_page_no_unwind 1 5 false stC2 (vm_get_frame 1 stC2).2 0 pageC2
    { id := 0, kva := 0x20000, page := none, pinned := false } hg (by decide) (by decide)
  refine ⟨(h.2 rfl).1, (h.2 rfl).2, ?_, ?_⟩
  · exact (h.1 (by rw [(h.2 rfl).1]; decide)).1
  · exact (h.1 (by rw [(h.2 rfl).1]; decide)).2.1

/-!
Claim C7: the Page and Frame back-pointers.
-/

/-- C7 (amended): a successful vm_do_claim_page leaves the claimed pair
mutually consistent — the obtained frame holds the page and the page
holds the frame — and file-backed swap-out detaches the evicted page's
frame pointer; but anonymous swap-out never changes any page's frame
pointer, so evicting an anon page and handing its frame to another page
leaves the evicted page's frame pointer set and inconsistent: the
invariant is not preserved by anon eviction. -/
theorem backpointers_spec (cur pid : Nat) (pteOk : Bool) (st st1 : VMState)
    (fid : Nat) (p : PageR) (fr : FrameR)
    (hg : vm_get_frame cur st = (some fid, st1))
    (hf : getFrame st1 fid = some fr)
    (hp : getPage st1 pid = some p) :
    ((vm_do_claim_page cur pid pteOk st).1 = .ok →
      (getFrame (vm_do_claim_page cur pid pteOk st).2 fid).map FrameR.page = some (some pid)
      ∧ (getPage (vm_do_claim_page cur pid pteOk st).2 pid).map PageR.frame = some (some fid))
    ∧ (∀ (cur2 pid2 : Nat) (st2 : VMState),
        (getPage (anon_swap_out cur2 pid2 st2).2 pid2).map PageR.frame
          = (getPage st2 pid2).map PageR.frame)
    ∧ (∀ (cur2 pid2 : Nat) (st2 : VMState) (p2 : PageR) (fid2 : Nat),
        getPage st2 pid2 = some p2 → p2.frame = some fid2 →
        (getPage (file_backed_swap_out cur2 pid2 st2).2 pid2).map PageR.frame = some none) := by
  have hga : getFrame (setFrame st1 fid (fun f2 => { f2 with page := some pid, pinned := true })) fid
      = some { fr with page := some pid, pinned := true } := by
    rw [getFrame_setFrame st1 fid (fun f2 => { f2 with page := some pid, pinned := true })
      (fun a => rfl), hf, Option.map_some']
  have hpa : getPage (setPage (setFrame st1 fid (fun f2 => { f2 with page := some pid, pinned := true })) pid
      (fun q => { q with frame := some fid, owner := some cur })) pid
      = some { p with frame := some fid, owner := some cur } := by
    unfold getPage setPage
    rw [show (setFrame st1 fid (fun f2 => { f2 with page := some pid, pinned := true })).pages
      = st1.pages from rfl]
    rw [find?_map_upd PageR.id st1.pages pid
      (fun q => { q with frame := some fid, owner := some cur }) (fun a => rfl)]
    rw [show st1.pages.find? (fun p2 => p2.id == pid) = some p from hp, Option.map_some']
  refine ⟨?_, ?_, ?_⟩
  · unfold vm_do_claim_page
    rw [hg]
    dsimp only
    rw [hf, hp]
    dsimp only
    cases pteOk with
    | false =>
      rw [if_pos rfl]
      intro hok
      simp at hok
    | true =>
      rw [if_neg (by simp)]
      rcases hd : swap_in_dispatch cur pid fr.kva
        (pml4_set (setPage (setFrame st1 fid (fun f2 => { f2 with page := some pid, pinned := true })) pid
          (fun q => { q with frame := some fid, owner := some cur })) cur p.va fr.kva) with ⟨r, st5⟩
      have hfr5 : st5.frames
          = (setPage (setFrame st1 fid (fun f2 => { f2 with page := some pid, pinned := true })) pid
            (fun q => { q with frame := some fid, owner := some cur })).frames := by
        have h2 := swap_in_dispatch_frames cur pid fr.kva
          (pml4_set (setPage (setFrame st1 fid (fun f2 => { f2 with page := some pid, pinned := true })) pid
            (fun q => { q with frame := some fid, owner := some cur })) cur p.va fr.kva)
        rw [hd] at h2
        exact h2
      have hgf5 : getFrame st5 fid = some { fr with page := some pid, pinned := true } := by
        unfold getFrame
        rw [hfr5]
        exact hga
      have hpg5 : (getPage st5 pid).map PageR.frame = some (some fid) := by
        have h2 := swap_in_dispatch_page_frame cur pid fr.kva
          (pml4_set (setPage (setFrame st1 fid (fun f2 => { f2 with page := some pid, pinned := true })) pid
            (fun q => { q with frame := some fid, owner := some cur })) cur p.va fr.kva)
        rw [hd] at h2
        rw [h2, show getPage (pml4_set (setPage (setFrame st1 fid
            (fun f2 => { f2 with page := some pid, pinned := true })) pid
            (fun q => { q with frame := some fid, owner := some cur })) cur p.va fr.kva) pid
          = some { p with frame := some fid, owner := some cur } from hpa]
        rfl
      cases r with
      | panic => intro hok; simp at hok
      | fail => intro hok; simp at hok
      | ok =>
        intro _
        constructor
        · rw [show getFrame (CRes.ok, setFrame st5 fid (fun f2 => { f2 with pinned := false })).2 fid
            = getFrame (setFrame st5 fid (fun f2 => { f2 with pinned := false })) fid from rfl]
          rw [getFrame_setFrame st5 fid (fun f2 => { f2 with pinned := false }) (fun a => rfl), hgf5]
          rfl
        · rw [show getPage (CRes.ok, setFrame st5 fid (fun f2 => { f2 with pinned := false })).2 pid
            = getPage st5 pid from rfl]
          exact hpg5
  · intro cur2 pid2 st2
    unfold anon_swap_out
    dsimp only
    repeat' split
    all_goals try rfl
    all_goals
      simp only [getPage, setPage, pml4_clear_page]
      rw [find?_map_upd PageR.id st2.pages pid2]
      · cases st2.pages.find? (fun p2 => p2.id == pid2) <;> rfl
      · intro a; rfl
  · intro cur2 pid2 st2 p2 fid2 hp2 hpf2
    unfold file_backed_swap_out
    rw [hp2]
    dsimp only
    rw [hpf2]
    dsimp only
    simp only [getPage, setPage, setFrame, pml4_clear_page]
    rw [show (if st2.dirty cur2 p2.va = true then
        { st2 with dirty := fun t v => if t = cur2 ∧ v = p2.va then false else st2.dirty t v } else st2).pages
      = st2.pages from by split <;> rfl]
    rw [find?_map_upd PageR.id st2.pages pid2]
    · rw [show st2.pages.find? (fun p3 => p3.id == pid2) = some p2 from hp2, Option.map_some']
      rfl
    · intro a; rfl

/-- C7 witness: claiming page 2 in stC7 succeeds (evicting frame 7) and
the amended consistency holds for the CLAIMED pair: frame 7 holds page 2
and page 2 holds frame 7. -/
theorem backpointers_spec_w :
    (vm_do_claim_page 1 2 true stC7).1 = .ok
    ∧ (getFrame (vm_do_claim_page 1 2 true stC7).2 7).map FrameR.page = some (some 2)
    ∧ (getPage (vm_do_claim_page 1 2 true stC7).2 2).map PageR.frame = some (some 7) := by
  have h1 : (vm_get_frame 1 stC7).1 = some 7 := by decide
  have hg : vm_get_frame 1 stC7 = (some 7, (vm_get_frame 1 stC7).2) := by
    rw [← h1]
  have h := backpointers_spec 1 2 true stC7 (vm_get_frame 1 stC7).2 7 pageC7b
    { id := 7, kva := 0x9000, page := none, pinned := false } hg (by decide) (by decide)
  have hok : (vm_do_claim_page 1 2 true stC7).1 = .ok := by decide
  exact ⟨hok, (h.1 hok).1, (h.1 hok).2⟩

/-!
Claim C3: the stack-growth decision of the fault handler.
-/

/-- The acceptance condition of is_valid_stack_access, spelled out: the
raw address is below USER_STACK, at least rsp - 32 in 64-bit unsigned
arithmetic, and within 1 MiB of USER_STACK. -/
theorem is_valid_stack_access_iff (addr rsp : Nat) :
    is_valid_stack_access addr rsp = true ↔
      (addr < USER_STACK ∧ (rsp + (W64 - 32)) % W64 ≤ addr ∧ USER_STACK - addr ≤ 2 ^ 20) := by
  unfold is_valid_stack_access
  split_ifs with h1 h2 h3
  · constructor
    · intro h; exact absurd h (by simp)
    · rintro ⟨hc1, _, _⟩; omega
  · constructor
    · intro h; exact absurd h (by simp)
    · rintro ⟨_, hc2, _⟩; omega
  · constructor
    · intro h; exact absurd h (by simp)
    · rintro ⟨_, _, hc3⟩; omega
  · constructor
    · intro _
      exact ⟨by omega, by omega, by omega⟩
    · intro _
      rfl

/-- C3 (amended): for a not-present fault whose rounded address is
absent from the SPT, the handler grows the stack iff the RAW faulting
address satisfies addr < USER_STACK, addr at least rsp - 32 computed in
64-bit unsigned arithmetic — when rsp ≥ 32 this is exactly the integer
condition addr ≥ rsp - 32, but for rsp < 32 the bound wraps and the
check rejects — and USER_STACK - addr ≤ 1 MiB; on growth a new writable
anon page at the rounded-down address is registered and claimed. -/
theorem vm_try_handle_fault_stack_spec (spt : List SPage2) (addr rsp : Nat)
    (user write : Bool)
    (ha : addr < W64) (hr : rsp < W64)
    (hmiss : ∀ p2 ∈ spt, p2.va ≠ pg_round_down addr) :
    ((vm_try_handle_fault spt addr rsp user write true).1 = .grew (pg_round_down addr)
      ↔ (addr < USER_STACK ∧ (rsp + (W64 - 32)) % W64 ≤ addr ∧ USER_STACK - addr ≤ 2 ^ 20))
    ∧ ((vm_try_handle_fault spt addr rsp user write true).1 = .grew (pg_round_down addr) →
        (vm_try_handle_fault spt addr rsp user write true).2
          = spt ++ [{ va := pg_round_down addr, writable := true, isAnon := true, claimed := true }])
    ∧ (32 ≤ rsp → ((rsp + (W64 - 32)) % W64 ≤ addr ↔ (rsp : Int) - 32 ≤ (addr : Int))) := by
  have hAny : spt.any (fun p2 => p2.va == pg_round_down addr) = false := by
    rw [List.any_eq_false]
    intro x hx
    simpa using hmiss x hx
  have h32W : (32 : Nat) ≤ W64 := by norm_num [W64]
  have hwrap : 32 ≤ rsp → (rsp + (W64 - 32)) % W64 = rsp - 32 := by
    intro h32
    have he : rsp + (W64 - 32) = W64 + (rsp - 32) := by omega
    rw [he, Nat.add_mod_left]
    exact Nat.mod_eq_of_lt (by omega)
  have hpa_le : pg_round_down addr ≤ addr := Nat.sub_le _ _
  by_cases hu : (pg_round_down addr) < KERN_BASE
  · have hredu : vm_try_handle_fault spt addr rsp user write true
        = (if is_valid_stack_access addr rsp then
            (FOut.grew (pg_round_down addr), vm_stack_growth spt addr) else (.reject, spt)) := by
      unfold vm_try_handle_fault
      rw [if_neg (show ¬(true = false) by simp)]
      rw [if_neg (show ¬(is_user_vaddr (pg_round_down addr) = false) by
        simp [is_user_vaddr, hu])]
      rw [if_neg (show ¬(spt.any (fun p2 => p2.va == pg_round_down addr) = true) by
        simp [hAny])]
    have hgrowth : vm_stack_growth spt addr
        = spt ++ [{ va := pg_round_down addr, writable := true, isAnon := true, claimed := true }] := by
      unfold vm_stack_growth
      rw [if_neg (show ¬(spt.any (fun p2 => p2.va == pg_round_down addr) = true) by
        simp [hAny])]
    refine ⟨?_, ?_, fun h32 => by rw [hwrap h32]; omega⟩
    · rw [hredu]
      by_cases hvsa : is_valid_stack_access addr rsp = true
      · rw [if_pos hvsa]
        simp only [true_iff]
        exact (is_valid_stack_access_iff addr rsp).mp hvsa
      · rw [if_neg hvsa]
        constructor
        · intro h; exact absurd h (by simp)
        · intro hconds
          exact absurd ((is_valid_stack_access_iff addr rsp).mpr hconds) hvsa
    · rw [hredu]
      by_cases hvsa : is_valid_stack_access addr rsp = true
      · rw [if_pos hvsa]
        intro _
        exact hgrowth
      · rw [if_neg hvsa]
        intro h
        exact absurd h (by simp)
  · have hredu : vm_try_handle_fault spt addr rsp user write true = (.reject, spt) := by
      unfold vm_try_handle_fault
      rw [if_neg (show ¬(true = false) by simp)]
      rw [if_pos (show is_user_vaddr (pg_round_down addr) = false by
        simp [is_user_vaddr, hu])]
    rw [hredu]
    have hcondfail : ¬(addr < USER_STACK ∧ (rsp + (W64 - 32)) % W64 ≤ addr
        ∧ USER_STACK - addr ≤ 2 ^ 20) := by
      rintro ⟨hc1, _, _⟩
      have : USER_STACK < KERN_BASE := by norm_num [USER_STACK, KERN_BASE]
      omega
    refine ⟨?_, ?_, fun h32 => by rw [hwrap h32]; omega⟩
    · constructor
      · intro h; exact absurd h (by simp)
      · intro h; exact absurd h hcondfail
    · intro h; exact absurd h (by simp)

/-- C3 witness: with rsp = USER_STACK - 4096 and a fault eight bytes
below it on an empty SPT, the three conditions hold and the handler
grows the stack, registering a claimed writable anon page at the
rounded-down address. -/
theorem vm_try_handle_fault_stack_spec_w :
    (vm_try_handle_fault [] (USER_STACK - 4096 - 8) (USER_STACK - 4096) true true true).1
      = .grew (pg_round_down (USER_STACK - 4096 - 8))
    ∧ (vm_try_handle_fault [] (USER_STACK - 4096 - 8) (USER_STACK - 4096) true true true).2
      = [{ va := pg_round_down (USER_STACK - 4096 - 8), writable := true, isAnon := true, claimed := true }] := by
  have h := vm_try_handle_fault_stack_spec [] (USER_STACK - 4096 - 8) (USER_STACK - 4096)
    true true (by norm_num [USER_STACK, W64]) (by norm_num [USER_STACK, W64]) (by simp)
  have hgrew := h.1.mpr (by refine ⟨?_, ?_, ?_⟩ <;> norm_num [USER_STACK, W64])
  exact ⟨hgrew, by simpa using h.2.1 hgrew⟩

/-!
Claim C4: what anon_swap_in actually does.
-/

/-- C4 (amended): anon_swap_in on a page holding a swap-slot reference
whose slot is marked in use reads the slot's eight sectors into the
frame, releases the slot and resets the stored index to none; on a page
holding no slot it does NOT succeed — the stored -1, cast to size_t, is
out of bitmap range and trips the bitmap bounds assertion (panic). -/
theorem anon_swap_in_spec (pid kva : Nat) (st : VMState) (p : PageR)
    (hp : getPage st pid = some p) :
    (∀ s, p.kind = .anonp (some s) → st.swapBits.get? s = some true →
      (anon_swap_in pid kva st).1 = .ok
      ∧ (∀ i, i < 8 → (anon_swap_in pid kva st).2.mem kva i = st.disk (s * 8 + i))
      ∧ (anon_swap_in pid kva st).2.swapBits.get? s = some false
      ∧ (getPage (anon_swap_in pid kva st).2 pid).map PageR.kind = some (.anonp none))
    ∧ (p.kind = .anonp none → st.swapBits.length < W64 - 1 →
      (anon_swap_in pid kva st).1 = .panic) := by
  constructor
  · intro s hk hbit
    have hlt : s < st.swapBits.length := (List.get?_eq_some.mp hbit).1
    refine ⟨?_, ?_, ?_, ?_⟩
    · simp only [anon_swap_in, hp, hk, hbit]
    · intro i hi
      simp only [anon_swap_in, hp, hk, hbit, setPage]
      rw [if_pos ⟨trivial, hi⟩]
    · simp only [anon_swap_in, hp, hk, hbit, setPage]
      exact List.get?_set_eq_of_lt false hlt
    · simp only [anon_swap_in, hp, hk, hbit]
      rw [getPage_setPage _ pid (fun q => { q with kind := PKind.anonp none }) (fun q => rfl)]
      show Option.map PageR.kind ((getPage st pid).map (fun q => { q with kind := PKind.anonp none }))
        = some (PKind.anonp none)
      rw [hp]
      rfl
  · intro hk hlen
    have hnone : st.swapBits.get? (W64 - 1) = none := by
      rw [List.get?_eq_none]
      exact Nat.le_of_lt hlen
    simp only [anon_swap_in, hp, hk, hnone]

/-- C4 witness: reading back the swapped-out page of stC6 (slot 0 in
use) succeeds and releases the slot; and the panic branch fires on the
slotless page of stC4. -/
theorem anon_swap_in_spec_w :
    (getPage stC6 3 = some pageC6 ∧ pageC6.kind = .anonp (some 0)
      ∧ stC6.swapBits.get? 0 = some true)
    ∧ (anon_swap_in 3 0x9000 stC6).1 = .ok
    ∧ (anon_swap_in 3 0x9000 stC6).2.swapBits.get? 0 = some false
    ∧ (anon_swap_in 2 0x9000 stC4).1 = .panic := by
  refine ⟨⟨by decide, by decide, by decide⟩, ?_, ?_, ?_⟩
  · exact ((anon_swap_in_spec 3 0x9000 stC6 pageC6 (by decide)).1 0 (by decide) (by decide)).1
  · exact ((anon_swap_in_spec 3 0x9000 stC6 pageC6 (by decide)).1 0 (by decide) (by decide)).2.2.1
  · exact (anon_swap_in_spec 2 0x9000 stC4 pageC4 (by decide)).2 (by decide) (by decide)

/-!
Claim C9: the fork copy of the supplemental page table.
-/

/-- Marking a child page claimed preserves its vm type. -/
theorem vm1_mark (v : Nat) (l : List DstPage) (h : ∀ d ∈ l, d.vmType = 1) :
    ∀ d ∈ l.map (fun d => if d.va == v then { d with claimed := true } else d), d.vmType = 1 := by
  intro d hd
  obtain ⟨d0, hd0, rfl⟩ := List.mem_map.mp hd
  by_cases hv : (d0.va == v) = true
  · rw [if_pos hv]; exact h d0 hd0
  · rw [if_neg hv]; exact h d0 hd0

/-- Appending a child page of vm type 1 preserves the all-anon property. -/
theorem vm1_app (l : List DstPage) (e : DstPage) (h : ∀ d ∈ l, d.vmType = 1) (he : e.vmType = 1) :
    ∀ d ∈ l ++ [e], d.vmType = 1 := by
  intro d hd
  rcases List.mem_append.mp hd with h2 | h2
  · exact h d h2
  · simp only [List.mem_singleton] at h2
    subst h2
    exact he

/-- Every page the copy loop registers in the child carries vm type
VM_ANON (1). -/
theorem spt_copy_loop_anon_only (env : CEnv) : ∀ (src : List SrcPage) (i : Nat)
    (dst : List DstPage) (ev : List CEvent), (∀ d ∈ dst, d.vmType = 1) →
    ∀ d ∈ (spt_copy_loop env src i dst ev).2.1, d.vmType = 1 := by
  intro src
  induction src with
  | nil => intro i dst ev hdst; exact hdst
  | cons s rest ih =>
    intro i dst ev hdst
    unfold spt_copy_loop
    cases s.kind <;> dsimp only <;> repeat' split
    all_goals first
      | exact hdst
      | exact vm1_app _ _ hdst rfl
      | exact vm1_mark _ _ hdst
      | exact vm1_mark _ _ (vm1_app _ _ hdst rfl)
      | exact ih _ _ _ hdst
      | exact ih _ _ _ (vm1_app _ _ hdst rfl)
      | exact ih _ _ _ (vm1_mark _ _ hdst)
      | exact ih _ _ _ (vm1_mark _ _ (vm1_app _ _ hdst rfl))

/-- A source consisting only of file-backed mappings is skipped
entirely: the copy loop changes nothing and returns true. -/
theorem spt_copy_loop_allfile (env : CEnv) : ∀ (src : List SrcPage) (i : Nat)
    (dst : List DstPage) (ev : List CEvent),
    (∀ s ∈ src, s.kind = .uninitFile ∨ s.kind = .residentFile) →
    spt_copy_loop env src i dst ev = (.ret true, dst, ev) := by
  intro src
  induction src with
  | nil => intro i dst ev _; rfl
  | cons s rest ih =>
    intro i dst ev hall
    have hs := hall s (by simp)
    have hrest : ∀ s2 ∈ rest, s2.kind = .uninitFile ∨ s2.kind = .residentFile :=
      fun s2 hs2 => hall s2 (List.mem_cons_of_mem _ hs2)
    rcases hs with hk | hk <;> (unfold spt_copy_loop; rw [hk]; exact ih (i + 1) dst ev hrest)

/-- The copy loop answers false only after recording a reopen failure. -/
theorem spt_copy_loop_false_reopen (env : CEnv) : ∀ (src : List SrcPage) (i : Nat)
    (dst : List DstPage) (ev : List CEvent),
    (spt_copy_loop env src i dst ev).1 = .ret false →
    CEvent.reopenFail ∈ (spt_copy_loop env src i dst ev).2.2 := by
  intro src
  induction src with
  | nil => intro i dst ev h; simp [spt_copy_loop] at h
  | cons s rest ih =>
    intro i dst ev
    unfold spt_copy_loop
    cases s.kind <;> dsimp only <;> repeat' split
    all_goals first
      | (intro h; refine absurd h ?_; simp; done)
      | (intro _; exact List.mem_cons_self _ _)
      | exact ih _ _ _

/-- When every file_reopen succeeds the copy loop never returns
false — also in runs where allocations or claims failed. -/
theorem spt_copy_loop_reopen_ok (env : CEnv) (hre : ∀ j, env.reopenOk j = true) :
    ∀ (src : List SrcPage) (i : Nat) (dst : List DstPage) (ev : List CEvent),
    (spt_copy_loop env src i dst ev).1 ≠ .ret false := by
  intro src
  induction src with
  | nil => intro i dst ev h; simp [spt_copy_loop] at h
  | cons s rest ih =>
    intro i dst ev
    unfold spt_copy_loop
    cases s.kind <;> dsimp only <;> repeat' split
    all_goals first
      | (intro h; refine absurd h ?_; simp; done)
      | exact ih _ _ _
      | (rename_i h; rw [hre i] at h; simp at h)

/-- C9 (amended): supplemental_page_table_copy registers only VM_ANON
pages in the child (uninit pages with target kind File and resident File
pages are skipped; an all-file source leaves the child SPT empty with
the copy returning true), and it returns false ONLY when a file_reopen
of an uninit anon page's aux payload fails: when every reopen succeeds
the copy never returns false, even in runs where an allocation,
registration or claim performed for the child failed. -/
theorem supplemental_page_table_copy_spec (env : CEnv) (src : List SrcPage) :
    (∀ d ∈ (supplemental_page_table_copy env src).2.1, d.vmType = 1)
    ∧ ((∀ s ∈ src, s.kind = .uninitFile ∨ s.kind = .residentFile) →
        supplemental_page_table_copy env src = (.ret true, [], []))
    ∧ ((supplemental_page_table_copy env src).1 = .ret false →
        CEvent.reopenFail ∈ (supplemental_page_table_copy env src).2.2)
    ∧ ((∀ j, env.reopenOk j = true) →
        (supplemental_page_table_copy env src).1 ≠ .ret false) := by
  refine ⟨?_, ?_, ?_, ?_⟩
  · exact spt_copy_loop_anon_only env src 0 [] [] (by intro d hd; cases hd)
  · intro hall
    exact spt_copy_loop_allfile env src 0 [] [] hall
  · exact spt_copy_loop_false_reopen env src 0 [] []
  · intro hre
    exact spt_copy_loop_reopen_ok env hre src 0 [] []

/-- C9 witness: on the one-page uninit anon source with all claims
failing, the copy registers only anon pages, does not return false, and
indeed returns true while a claim failure occurred. -/
theorem supplemental_page_table_copy_spec_w :
    (∀ d ∈ (supplemental_page_table_copy envC9 srcC9).2.1, d.vmType = 1)
    ∧ (supplemental_page_table_copy envC9 srcC9).1 ≠ .ret false
    ∧ (supplemental_page_table_copy envC9 srcC9).1 = .ret true := by
  refine ⟨(supplemental_page_table_copy_spec envC9 srcC9).1, ?_, by decide⟩
  exact (supplemental_page_table_copy_spec envC9 srcC9).2.2.2 (fun j => rfl)

/-!
Claim C10: do_mmap with a page-aligned offset beyond the file length.
-/

set_option maxRecDepth 2000 in
/-- Once file_remaining has been consumed down to zero while bytes of
the request remain, every further iteration of the do_mmap registration
loop succeeds and registers a page with read-bytes 0 (and a full page of
zero-bytes), provided the target VAs are free. -/
theorem mmapLoop_zero (addr : Nat) (w : Bool) (fileId : Nat) :
    ∀ (n i mIdx : Nat) (curOfs remaining : Int) (st : MState),
    0 < remaining →
    (∀ k, k < n → ∀ e ∈ st.spt, e.va ≠ addr + (i + k) * PGSIZE) →
    (mmapLoop addr w fileId (fun _ => true) n i mIdx curOfs remaining 0 st).1 = true
    ∧ (mmapLoop addr w fileId (fun _ => true) n i mIdx curOfs remaining 0 st).2.spt
      = st.spt ++ (List.range n).map (fun k =>
          { va := addr + (i + k) * PGSIZE, writable := w, pagePtr := st.nextPtr + 2 * k + 1,
            auxPtr := st.nextPtr + 2 * k, fileId := fileId, ofs := curOfs,
            readBytes := 0, zeroBytes := (PGSIZE : Int) }) := by
  intro n
  induction n with
  | zero =>
    intro i mIdx curOfs remaining st hrem hcol
    exact ⟨rfl, by simp [mmapLoop]⟩
  | succ m ih =>
    intro i mIdx curOfs remaining st hrem hcol
    have hP : (0 : Int) < (PGSIZE : Int) := by norm_num [PGSIZE]
    have hAny : (st.spt.any (fun e => e.va == addr + i * PGSIZE)) = false := by
      rw [List.any_eq_false]
      intro e he
      have := hcol 0 (by omega) e he
      simpa using this
    have hstep : mmapLoop addr w fileId (fun _ => true) (m + 1) i mIdx curOfs remaining 0 st
        = mmapLoop addr w fileId (fun _ => true) m (i + 1) (mIdx + 2) (curOfs + 0)
            (remaining - 0) (0 - 0)
            ⟨st.spt ++ [⟨addr + i * PGSIZE, w, st.nextPtr + 1, st.nextPtr, fileId,
                curOfs, 0, (PGSIZE : Int) - 0⟩],
              st.regions,
              (st.live ++ [st.nextPtr]) ++ [st.nextPtr + 1],
              st.nextPtr + 1 + 1,
              st.doubleFree⟩ := by
      simp only [mmapLoop, mallocPtr]
      have hrb : (if (if remaining > (PGSIZE : Int) then (PGSIZE : Int) else remaining) > (0 : Int)
          then (0 : Int)
          else (if remaining > (PGSIZE : Int) then (PGSIZE : Int) else remaining)) = 0 := by
        rw [if_pos]
        split <;> omega
      rw [hrb]
      rw [if_neg (show ¬(true = false) by simp)]
      rw [if_neg (show ¬((st.spt.any (fun e => e.va == addr + i * PGSIZE)) = true) by simp [hAny])]
      rw [if_neg (show ¬(true = false) by simp)]
    have hcol2 : ∀ k, k < m →
        ∀ e ∈ (st.spt ++ [(⟨addr + i * PGSIZE, w, st.nextPtr + 1, st.nextPtr, fileId,
            curOfs, 0, (PGSIZE : Int) - 0⟩ : MEntry)] : List MEntry),
          e.va ≠ addr + (i + 1 + k) * PGSIZE := by
      intro k hk e he
      rcases List.mem_append.mp he with h2 | h2
      · have h3 := hcol (k + 1) (by omega) e h2
        intro hcontra
        apply h3
        rw [hcontra]
        have h4 : i + 1 + k = i + (k + 1) := by omega
        rw [h4]
      · simp only [List.mem_singleton] at h2
        subst h2
        simp only [PGSIZE]
        omega
    have hrec := ih (i + 1) (mIdx + 2) (curOfs + 0) (remaining - 0)
      ⟨st.spt ++ [⟨addr + i * PGSIZE, w, st.nextPtr + 1, st.nextPtr, fileId,
          curOfs, 0, (PGSIZE : Int) - 0⟩],
        st.regions, (st.live ++ [st.nextPtr]) ++ [st.nextPtr + 1], st.nextPtr + 1 + 1,
        st.doubleFree⟩ (by omega) hcol2
    dsimp only at hrec
    rw [hstep, show (0 : Int) - 0 = 0 from by ring]
    refine ⟨hrec.1, ?_⟩
    rw [hrec.2]
    simp only [List.append_assoc, List.singleton_append, List.range_succ_eq_map,
      List.map_cons, List.map_map, List.append_cancel_left_eq, List.cons.injEq]
    refine ⟨?_, ?_⟩
    · simp only [MEntry.mk.injEq]
      exact ⟨by ring, trivial, trivial, by ring, trivial, trivial, trivial, by ring⟩
    · refine List.map_congr_left ?_
      intro k _
      simp only [Function.comp_apply, MEntry.mk.injEq]
      refine ⟨?_, trivial, ?_, ?_, trivial, by ring, trivial, trivial⟩
      · simp only [PGSIZE, Nat.succ_eq_add_one]
        omega
      · simp only [Nat.succ_eq_add_one]
        omega
      · simp only [Nat.succ_eq_add_one]
        omega

set_option maxRecDepth 2000 in
/-- C10 amended: when every argument check of do_mmap passes but the
page-aligned offset strictly exceeds the (positive) file length, the
call still succeeds and returns addr — the offset is never validated
against the file length — and the FIRST registered lazy File page
carries the negative page_read_bytes f.len - offset; the remaining
registered pages of the mapping carry page_read_bytes 0 (not the
negative difference, which the original claim ascribed to every
registered page). -/
theorem do_mmap_offset_spec (addr : Nat) (length : Int) (w : Bool) (f : FileH)
    (offset : Int) (st : MState)
    (h1 : 0 < length) (h2 : addr % PGSIZE = 0) (h3 : 0 < f.len)
    (h4 : f.len < offset) (h5 : offset % (PGSIZE : Int) = 0)
    (h6 : addr + length.toNat < KERN_BASE)
    (h7 : ∀ i, i < ((length + (PGSIZE : Int) - 1) / (PGSIZE : Int)).toNat →
      ∀ e ∈ st.spt, e.va ≠ addr + i * PGSIZE) :
    (do_mmap addr length w (some f) offset (fun _ => true) st).1 = some addr
    ∧ f.len - offset < 0
    ∧ (do_mmap addr length w (some f) offset (fun _ => true) st).2.spt
      = st.spt
        ++ (⟨addr, w, st.nextPtr + 2, st.nextPtr + 1, f.id, offset,
              f.len - offset, (PGSIZE : Int) - (f.len - offset)⟩ : MEntry)
        :: (List.range (((length + (PGSIZE : Int) - 1) / (PGSIZE : Int)).toNat - 1)).map
            (fun k => (⟨addr + (1 + k) * PGSIZE, w, st.nextPtr + 4 + 2 * k,
              st.nextPtr + 3 + 2 * k, f.id, f.len, 0, (PGSIZE : Int)⟩ : MEntry)) := by
  have hP : (0 : Int) < (PGSIZE : Int) := by norm_num [PGSIZE]
  have hneg : f.len - offset < 0 := by omega
  have hd : (1 : Int) ≤ (length + (PGSIZE : Int) - 1) / (PGSIZE : Int) := by
    rw [Int.le_ediv_iff_mul_le (by norm_num [PGSIZE])]
    simp only [PGSIZE]
    omega
  obtain ⟨m, hm⟩ : ∃ m, ((length + (PGSIZE : Int) - 1) / (PGSIZE : Int)).toNat = m + 1 :=
    ⟨((length + (PGSIZE : Int) - 1) / (PGSIZE : Int)).toNat - 1, by omega⟩
  have hKW : KERN_BASE < W64 := by norm_num [KERN_BASE, W64]
  have hlt1 : 0 < length.toNat := by omega
  have hmod : (addr + length.toNat) % W64 = addr + length.toNat := Nat.mod_eq_of_lt (by omega)
  have hmod2 : (addr + (length.toNat - 1)) % W64 = addr + (length.toNat - 1) :=
    Nat.mod_eq_of_lt (by omega)
  simp only [do_mmap]
  rw [hm]
  rw [if_neg (show ¬ length ≤ 0 by omega)]
  rw [if_neg (show ¬ pg_ofs addr ≠ 0 by simp [pg_ofs, h2])]
  rw [if_neg (show ¬ f.len = 0 by omega)]
  rw [if_neg (show ¬ is_kernel_vaddr addr = true by simp [is_kernel_vaddr]; omega)]
  rw [if_neg (show ¬ is_kernel_vaddr ((addr + length.toNat) % W64) = true by
        simp only [is_kernel_vaddr, decide_eq_true_eq, hmod]; omega)]
  rw [if_neg (show ¬ (addr + length.toNat) % W64 < addr by rw [hmod]; omega)]
  rw [if_neg (show ¬ offset % (PGSIZE : Int) ≠ 0 by simp [h5])]
  rw [if_neg (show ¬ pg_ofs addr ≠ 0 by simp [pg_ofs, h2])]
  rw [if_neg (show ¬ is_user_vaddr ((addr + (length.toNat - 1)) % W64) = false by
        simp only [is_user_vaddr, hmod2]; simp; omega)]
  have hover : ((List.range (m + 1)).any fun i => st.spt.any fun e => e.va == addr + i * PGSIZE) = false := by
    rw [List.any_eq_false]
    intro i hi
    rw [List.mem_range] at hi
    rw [Bool.not_eq_true, List.any_eq_false]
    intro e he
    simpa using h7 i (by omega) e he
  rw [if_neg (by simp [hover])]
  rw [if_neg (show ¬(true = false) by simp)]
  simp only [mallocPtr]
  have hAny : (st.spt.any (fun e => e.va == addr + 0 * PGSIZE)) = false := by
    rw [List.any_eq_false]
    intro e he
    simpa using h7 0 (by omega) e he
  have hrb : (if (if length > (PGSIZE : Int) then (PGSIZE : Int) else length) > f.len - offset
      then f.len - offset
      else (if length > (PGSIZE : Int) then (PGSIZE : Int) else length)) = f.len - offset := by
    rw [if_pos]
    simp only [PGSIZE]
    split <;> omega
  have hstep : mmapLoop addr w f.id (fun _ => true) (m + 1) 0 1 offset length (f.len - offset)
      ⟨st.spt, st.regions ++ [⟨addr, m + 1, f.id, st.nextPtr⟩],
        st.live ++ [st.nextPtr], st.nextPtr + 1, st.doubleFree⟩
      = mmapLoop addr w f.id (fun _ => true) m 1 3 (offset + (f.len - offset))
          (length - (f.len - offset)) ((f.len - offset) - (f.len - offset))
          ⟨st.spt ++ [⟨addr + 0 * PGSIZE, w, st.nextPtr + 1 + 1, st.nextPtr + 1, f.id,
              offset, f.len - offset, (PGSIZE : Int) - (f.len - offset)⟩],
            st.regions ++ [⟨addr, m + 1, f.id, st.nextPtr⟩],
            ((st.live ++ [st.nextPtr]) ++ [st.nextPtr + 1]) ++ [st.nextPtr + 1 + 1],
            st.nextPtr + 1 + 1 + 1, st.doubleFree⟩ := by
    simp only [mmapLoop, mallocPtr]
    rw [hrb]
    rw [if_neg (show ¬(true = false) by simp)]
    rw [if_neg (show ¬((st.spt.any (fun e => e.va == addr + 0 * PGSIZE)) = true) by rw [hAny]; simp)]
    rw [if_neg (show ¬(true = false) by simp)]
  have hcolz : ∀ k, k < m → ∀ e ∈ (st.spt ++ [(⟨addr + 0 * PGSIZE, w, st.nextPtr + 1 + 1,
      st.nextPtr + 1, f.id, offset, f.len - offset,
      (PGSIZE : Int) - (f.len - offset)⟩ : MEntry)] : List MEntry),
      e.va ≠ addr + (1 + k) * PGSIZE := by
    intro k hk e he
    rcases List.mem_append.mp he with h2 | h2
    · exact h7 (1 + k) (by omega) e h2
    · simp only [List.mem_singleton] at h2
      subst h2
      simp only [PGSIZE]
      omega
  have hz := mmapLoop_zero addr w f.id m 1 3 (offset + (f.len - offset))
      (length - (f.len - offset))
      ⟨st.spt ++ [⟨addr + 0 * PGSIZE, w, st.nextPtr + 1 + 1, st.nextPtr + 1, f.id,
          offset, f.len - offset, (PGSIZE : Int) - (f.len - offset)⟩],
        st.regions ++ [⟨addr, m + 1, f.id, st.nextPtr⟩],
        ((st.live ++ [st.nextPtr]) ++ [st.nextPtr + 1]) ++ [st.nextPtr + 1 + 1],
        st.nextPtr + 1 + 1 + 1, st.doubleFree⟩
      (by omega) hcolz
  dsimp only at hz
  rw [hstep, show (f.len - offset) - (f.len - offset) = (0 : Int) from by ring]
  rcases hres : mmapLoop addr w f.id (fun _ => true) m 1 3 (offset + (f.len - offset))
      (length - (f.len - offset)) 0
      ⟨st.spt ++ [⟨addr + 0 * PGSIZE, w, st.nextPtr + 1 + 1, st.nextPtr + 1, f.id,
          offset, f.len - offset, (PGSIZE : Int) - (f.len - offset)⟩],
        st.regions ++ [⟨addr, m + 1, f.id, st.nextPtr⟩],
        ((st.live ++ [st.nextPtr]) ++ [st.nextPtr + 1]) ++ [st.nextPtr + 1 + 1],
        st.nextPtr + 1 + 1 + 1, st.doubleFree⟩ with ⟨b, stF⟩
  rw [hres] at hz
  dsimp only at hz
  obtain ⟨hb, hspt⟩ := hz
  subst hb
  rw [hres]
  dsimp only
  refine ⟨rfl, hneg, ?_⟩
  rw [hspt]
  simp only [List.append_assoc, List.singleton_append, Nat.add_sub_cancel,
    List.append_cancel_left_eq, List.cons.injEq]
  refine ⟨?_, ?_⟩
  · simp only [MEntry.mk.injEq]
    exact ⟨by omega, trivial, trivial, trivial, trivial, trivial, trivial, trivial⟩
  · refine List.map_congr_left ?_
    intro k _
    simp only [MEntry.mk.injEq]
    exact ⟨trivial, trivial, by omega, trivial, trivial, by ring, trivial, trivial⟩

/-- Witness for the amended C10 theorem at a concrete call: mapping two
pages of a 100-byte file at offset 4096 > 100 succeeds and returns the
mapped address. -/
theorem do_mmap_offset_spec_w :
    (100 : Int) < 4096
    ∧ (do_mmap 0x10000000 8192 true (some ⟨0, 100⟩) 4096 (fun _ => true) mst0).1
      = some 0x10000000 :=
  ⟨by decide,
    (do_mmap_offset_spec 0x10000000 8192 true ⟨0, 100⟩ 4096 mst0 (by decide) (by decide)
      (by decide) (by decide) (by decide) (by decide)
      (fun i _ e he => by simp [mst0] at he)).1⟩

/-- Witness for the C5 clock-scan theorem at a concrete ring: a pinned
frame followed by an unpinned attached accessed frame. On the first lap
the scan clears the accessed bit of the candidate; on the second lap it
returns that frame with the bit cleared. -/
theorem vm_get_victim_clock_spec_w :
    ((∀ f ∈ ([⟨0, true, none⟩, ⟨1, false, some true⟩] : List VFrame),
        f.pinned = false → f.page ≠ none → f.page = some true)
      ∧ (∀ f ∈ ([⟨0, true, none⟩] : List VFrame), f.pinned = true ∨ f.page = none))
    ∧ (scanRot (2 * ([⟨0, true, none⟩, ⟨1, false, some true⟩] : List VFrame).length)
        [⟨0, true, none⟩, ⟨1, false, some true⟩]).victim
      = some (clearA ⟨1, false, some true⟩) :=
  ⟨⟨by decide, by decide⟩,
    (vm_get_victim_clock_spec [⟨0, true, none⟩, ⟨1, false, some true⟩]).2.2.1
      [⟨0, true, none⟩] ⟨1, false, some true⟩ [] rfl (by decide) (by decide) rfl
      (by decide)⟩

end PintosVM
